import Mathlib

/-!
# vccli: the authenticating round tripper

A shallow embedding of `auth.go` and `client.go` (package `vccli`) and of the
standard-library functions they call, followed by theorems about
`authRoundTrip.RoundTrip`, `getSessionInfo` and `createSessionKey`.

Conventions of the embedding:

* a Go `string` / `[]byte` holding text is a Lean `String` (the text it encodes
  in UTF-8); byte values are recovered with `utf8Bytes` where Go looks at bytes;
* a Go result `(T, error)` is a pair whose error component is an `Option`;
* the network, `net/url` and the parts of `encoding/json` and `strconv` that
  depend on data tables are parameters, collected in `Env`;
* side effects (mutex operations, accesses of `Client.Token`, calls, requests put
  on the wire) are recorded in order in a trace carried by the state.
-/

namespace Vccli

/-! ## Errors -/

/-- Go `error` values that occur in the package. -/
inductive GoError where
  /-- The package variable `errUnauthorized = errors.New("unauthorized")`. -/
  | errUnauthorized : GoError
  /-- An error value with the given message that wraps nothing of this package:
  the errors of the standard library (which cannot refer to the unexported
  `errUnauthorized`) and those of `fmt.Errorf` without `%w`. -/
  | plain (msg : String) : GoError
  /-- The value of `fmt.Errorf(pre + "%w", err)`. -/
  | wrap (pre : String) (err : GoError) : GoError
  deriving DecidableEq, Repr

/-- The method `Error()`. -/
def GoError.Error : GoError → String
  | .errUnauthorized => "unauthorized"
  | .plain msg => msg
  | .wrap pre err => pre ++ err.Error

/-- The function `errors.Is`: walks the `Unwrap` chain of `err` looking for `target`. -/
def errorsIs : GoError → GoError → Bool
  | .wrap pre err, target => (GoError.wrap pre err == target) || errorsIs err target
  | err, target => err == target

/-- Substring test on Go strings (`strings.Contains`). -/
def Contains (s substr : String) : Prop := substr.data <:+: s.data

instance (s substr : String) : Decidable (Contains s substr) := by
  unfold Contains; infer_instance

/-! ## `fmt`, `strconv`, `encoding/base64`, `strings` -/

/-- The verb `%d` on a non-negative `int`. -/
def fmtD (n : Nat) : String := toString n

/-- The UTF-8 encoding of one code point, as byte values. -/
def utf8Char (c : Char) : List Nat :=
  let n := c.toNat
  if n < 0x80 then [n]
  else if n < 0x800 then [0xC0 + n / 0x40, 0x80 + n % 0x40]
  else if n < 0x10000 then [0xE0 + n / 0x1000, 0x80 + n / 0x40 % 0x40, 0x80 + n % 0x40]
  else [0xF0 + n / 0x40000, 0x80 + n / 0x1000 % 0x40, 0x80 + n / 0x40 % 0x40, 0x80 + n % 0x40]

/-- The bytes of a Go string: `[]byte(s)`. -/
def utf8Bytes (s : String) : List Nat := s.data.flatMap utf8Char

/-- The verb `%v` on a `json.RawMessage`: the type has a `String` method, which
`fmt` calls, and which returns the text of the value. -/
def fmtVRawMessage (raw : String) : String := raw

/-- Lower-case hexadecimal digit. -/
def hexDigit (n : Nat) : Char := "0123456789abcdef".data.getD (n % 16) '0'

/-- The last `k` hexadecimal digits of `n`, most significant first. -/
def hexFixed : Nat → Nat → List Char
  | 0, _ => []
  | k + 1, n => hexFixed k (n / 16) ++ [hexDigit n]

/-- The function `strconv.IsPrint`; above U+00FF it consults tables, passed as `tbl`. -/
def IsPrint (tbl : Char → Bool) (r : Char) : Bool :=
  let n := r.toNat
  if n ≤ 0xFF then
    if 0x20 ≤ n ∧ n ≤ 0x7E then true
    else if 0xA1 ≤ n ∧ n ≤ 0xFF then n != 0xAD
    else false
  else tbl r

/-- The function `strconv.appendEscapedRune` for the quote character `"`,
`ASCIIonly` and `graphicOnly` false. -/
def appendEscapedRune (tbl : Char → Bool) (r : Char) : List Char :=
  if r = '"' ∨ r = '\\' then ['\\', r]
  else if IsPrint tbl r then [r]
  else if r.toNat = 7 then ['\\', 'a']
  else if r.toNat = 8 then ['\\', 'b']
  else if r.toNat = 12 then ['\\', 'f']
  else if r = '\n' then ['\\', 'n']
  else if r = '\r' then ['\\', 'r']
  else if r = '\t' then ['\\', 't']
  else if r.toNat = 11 then ['\\', 'v']
  else if r.toNat < 0x20 ∨ r.toNat = 0x7F then ['\\', 'x'] ++ hexFixed 2 r.toNat
  else if r.toNat < 0x10000 then ['\\', 'u'] ++ hexFixed 4 r.toNat
  else ['\\', 'U'] ++ hexFixed 8 r.toNat

/-- The function `strconv.Quote`, which the verb `%q` applies to a string. -/
def Quote (tbl : Char → Bool) (s : String) : String :=
  ⟨['"'] ++ s.data.flatMap (appendEscapedRune tbl) ++ ['"']⟩

/-- The alphabet of `base64.StdEncoding`. -/
def encodeStd : List Char :=
  "ABCDEFGHIJKLMNOPQRSTUVWXYZabcdefghijklmnopqrstuvwxyz0123456789+/".data

/-- One symbol of the alphabet. -/
def b64 (n : Nat) : Char := encodeStd.getD (n % 64) 'A'

/-- The method `base64.StdEncoding.EncodeToString` on a byte sequence: three bytes
give four symbols, the remainder is padded with `=`. -/
def base64Encode : List Nat → List Char
  | a :: b :: c :: rest =>
    [b64 (a / 4), b64 (a % 4 * 16 + b / 16), b64 (b % 16 * 4 + c / 64), b64 c] ++ base64Encode rest
  | [a, b] => [b64 (a / 4), b64 (a % 4 * 16 + b / 16), b64 (b % 16 * 4), '=']
  | [a] => [b64 (a / 4), b64 (a % 4 * 16), '=', '=']
  | [] => []

/-- The call `base64.StdEncoding.EncodeToString([]byte(s))`. -/
def EncodeToString (s : String) : String := ⟨base64Encode (utf8Bytes s)⟩

/-- The function `strings.Trim`: `s` without the leading and trailing code
points that occur in `cutset`. -/
def Trim (s cutset : String) : String :=
  ⟨((s.data.dropWhile (fun c => cutset.data.contains c)).rdropWhile
    (fun c => cutset.data.contains c))⟩

/-! ## `encoding/json`: the scanner and `Decoder.Decode` -/

/-- The field `step` of `json.scanner`: the state functions of `scanner.go`. -/
inductive Step where
  | BeginValue | BeginValueOrEmpty | BeginStringOrEmpty | BeginString
  | EndValue | EndTop
  | InString | InStringEsc | InStringEscU | InStringEscU1 | InStringEscU12 | InStringEscU123
  | Neg | S1 | S0 | Dot | Dot0 | E | ESign | E0
  | T | Tr | Tru | F | Fa | Fal | Fals | N | Nu | Nul
  | Error
  deriving DecidableEq, Repr

/-- The entries of `scanner.parseState`. -/
inductive ParseState where
  | parseObjectKey | parseObjectValue | parseArrayValue
  deriving DecidableEq, Repr

/-- The values a state function returns (the `scan...` constants); `scanError`
carries the message of the `SyntaxError` stored in `scanner.err`. -/
inductive Op where
  | scanContinue | scanBeginLiteral | scanBeginObject | scanObjectKey | scanObjectValue
  | scanEndObject | scanBeginArray | scanArrayValue | scanEndArray | scanSkipSpace | scanEnd
  | scanError (msg : String)
  deriving DecidableEq, Repr

/-- The type `json.scanner`; the head of `parseState` is the top of the stack. -/
structure Scanner where
  step : Step
  parseState : List ParseState
  deriving DecidableEq, Repr

/-- The constant `maxNestingDepth`. -/
def maxNestingDepth : Nat := 10000

/-- The function `isSpace` of `scanner.go`. -/
def isSpace (c : Char) : Bool := c = ' ' || c = '\t' || c = '\r' || c = '\n'

/-- The byte the scanner is looking at when it reaches `c`: the first byte of the
encoding of `c`, as the code point `string(byte)` converts it to. -/
def leadByte (c : Char) : Char := Char.ofNat ((utf8Char c).headD 0)

/-- The function `quoteChar` of `scanner.go`, on the byte the scanner rejects. -/
def quoteChar (c : Char) : String :=
  if c = '\'' then "'\\''"
  else if c = '"' then "'\"'"
  else ⟨['\''] ++ appendEscapedRune (fun _ => false) (leadByte c) ++ ['\'']⟩

/-- The method `scanner.error`. -/
def Scanner.error (s : Scanner) (c : Char) (context : String) : Op × Scanner :=
  (.scanError ("invalid character " ++ quoteChar c ++ " " ++ context), { s with step := .Error })

/-- The method `scanner.pushParseState`. -/
def Scanner.pushParseState (s : Scanner) (c : Char) (newParseState : ParseState)
    (successState : Op) : Op × Scanner :=
  let s1 := { s with parseState := newParseState :: s.parseState }
  if s1.parseState.length ≤ maxNestingDepth then (successState, s1)
  else s1.error c "exceeded max depth"

/-- The function `stateEndTop`: the error it records for a non-space byte is
dropped by the next `reset`, only `scanEnd` is returned. -/
def stateEndTop (s : Scanner) (_c : Char) : Op × Scanner := (.scanEnd, { s with step := .EndTop })

/-- The function `stateEndValue`, with `popParseState` inlined. -/
def stateEndValue (s : Scanner) (c : Char) : Op × Scanner :=
  match s.parseState with
  | [] => stateEndTop s c
  | ps :: rest =>
    if isSpace c then (.scanSkipSpace, { s with step := .EndValue })
    else
      let pop : Scanner :=
        { step := if rest.length = 0 then .EndTop else .EndValue, parseState := rest }
      match ps with
      | .parseObjectKey =>
        if c = ':' then
          (.scanObjectKey, { step := .BeginValue, parseState := .parseObjectValue :: rest })
        else s.error c "after object key"
      | .parseObjectValue =>
        if c = ',' then
          (.scanObjectValue, { step := .BeginString, parseState := .parseObjectKey :: rest })
        else if c = '}' then (.scanEndObject, pop)
        else s.error c "after object key:value pair"
      | .parseArrayValue =>
        if c = ',' then (.scanArrayValue, { s with step := .BeginValue })
        else if c = ']' then (.scanEndArray, pop)
        else s.error c "after array element"

/-- The function `stateBeginValue`. -/
def stateBeginValue (s : Scanner) (c : Char) : Op × Scanner :=
  if isSpace c then (.scanSkipSpace, s)
  else if c = '{' then
    ({ s with step := .BeginStringOrEmpty }).pushParseState c .parseObjectKey .scanBeginObject
  else if c = '[' then
    ({ s with step := .BeginValueOrEmpty }).pushParseState c .parseArrayValue .scanBeginArray
  else if c = '"' then (.scanBeginLiteral, { s with step := .InString })
  else if c = '-' then (.scanBeginLiteral, { s with step := .Neg })
  else if c = '0' then (.scanBeginLiteral, { s with step := .S0 })
  else if c = 't' then (.scanBeginLiteral, { s with step := .T })
  else if c = 'f' then (.scanBeginLiteral, { s with step := .F })
  else if c = 'n' then (.scanBeginLiteral, { s with step := .N })
  else if '1' ≤ c ∧ c ≤ '9' then (.scanBeginLiteral, { s with step := .S1 })
  else s.error c "looking for beginning of value"

/-- The function `stateBeginString`. -/
def stateBeginString (s : Scanner) (c : Char) : Op × Scanner :=
  if isSpace c then (.scanSkipSpace, s)
  else if c = '"' then (.scanBeginLiteral, { s with step := .InString })
  else s.error c "looking for beginning of object key string"

/-- The hexadecimal-digit test of the `stateInStringEscU...` functions. -/
def isHex (c : Char) : Bool :=
  ('0' ≤ c ∧ c ≤ '9') || ('a' ≤ c ∧ c ≤ 'f') || ('A' ≤ c ∧ c ≤ 'F')

/-- The digit test of the numeric states. -/
def isDigit (c : Char) : Bool := '0' ≤ c ∧ c ≤ '9'

/-- The common shape of the states inside a literal name: accept `want` and move
to `next`, or fail with the context text. -/
def stateLit (s : Scanner) (c want : Char) (next : Step) (context : String) : Op × Scanner :=
  if c = want then (.scanContinue, { s with step := next }) else s.error c context

/-- The function `state0`. -/
def state0 (s : Scanner) (c : Char) : Op × Scanner :=
  if c = '.' then (.scanContinue, { s with step := .Dot })
  else if c = 'e' ∨ c = 'E' then (.scanContinue, { s with step := .E })
  else stateEndValue s c

/-- The function `stateESign`. -/
def stateESign (s : Scanner) (c : Char) : Op × Scanner :=
  if isDigit c then (.scanContinue, { s with step := .E0 })
  else s.error c "in exponent of numeric literal"

/-- The call `s.step(s, c)`: dispatch on the current state function. -/
def Scanner.doStep (s : Scanner) (c : Char) : Op × Scanner :=
  match s.step with
  | .BeginValue => stateBeginValue s c
  | .BeginValueOrEmpty =>
    if isSpace c then (.scanSkipSpace, s)
    else if c = ']' then stateEndValue s c
    else stateBeginValue s c
  | .BeginStringOrEmpty =>
    if isSpace c then (.scanSkipSpace, s)
    else if c = '}' then
      stateEndValue { s with parseState := .parseObjectValue :: s.parseState.tail } c
    else stateBeginString s c
  | .BeginString => stateBeginString s c
  | .EndValue => stateEndValue s c
  | .EndTop => stateEndTop s c
  | .InString =>
    if c = '"' then (.scanContinue, { s with step := .EndValue })
    else if c = '\\' then (.scanContinue, { s with step := .InStringEsc })
    else if c.toNat < 0x20 then s.error c "in string literal"
    else (.scanContinue, s)
  | .InStringEsc =>
    if c = 'b' ∨ c = 'f' ∨ c = 'n' ∨ c = 'r' ∨ c = 't' ∨ c = '\\' ∨ c = '/' ∨ c = '"' then
      (.scanContinue, { s with step := .InString })
    else if c = 'u' then (.scanContinue, { s with step := .InStringEscU })
    else s.error c "in string escape code"
  | .InStringEscU =>
    if isHex c then (.scanContinue, { s with step := .InStringEscU1 })
    else s.error c "in \\u hexadecimal character escape"
  | .InStringEscU1 =>
    if isHex c then (.scanContinue, { s with step := .InStringEscU12 })
    else s.error c "in \\u hexadecimal character escape"
  | .InStringEscU12 =>
    if isHex c then (.scanContinue, { s with step := .InStringEscU123 })
    else s.error c "in \\u hexadecimal character escape"
  | .InStringEscU123 =>
    if isHex c then (.scanContinue, { s with step := .InString })
    else s.error c "in \\u hexadecimal character escape"
  | .Neg =>
    if c = '0' then (.scanContinue, { s with step := .S0 })
    else if '1' ≤ c ∧ c ≤ '9' then (.scanContinue, { s with step := .S1 })
    else s.error c "in numeric literal"
  | .S1 => if isDigit c then (.scanContinue, { s with step := .S1 }) else state0 s c
  | .S0 => state0 s c
  | .Dot =>
    if isDigit c then (.scanContinue, { s with step := .Dot0 })
    else s.error c "after decimal point in numeric literal"
  | .Dot0 =>
    if isDigit c then (.scanContinue, s)
    else if c = 'e' ∨ c = 'E' then (.scanContinue, { s with step := .E })
    else stateEndValue s c
  | .E =>
    if c = '+' ∨ c = '-' then (.scanContinue, { s with step := .ESign }) else stateESign s c
  | .ESign => stateESign s c
  | .E0 => if isDigit c then (.scanContinue, s) else stateEndValue s c
  | .T => stateLit s c 'r' .Tr "in literal true (expecting 'r')"
  | .Tr => stateLit s c 'u' .Tru "in literal true (expecting 'u')"
  | .Tru => stateLit s c 'e' .EndValue "in literal true (expecting 'e')"
  | .F => stateLit s c 'a' .Fa "in literal false (expecting 'a')"
  | .Fa => stateLit s c 'l' .Fal "in literal false (expecting 'l')"
  | .Fal => stateLit s c 's' .Fals "in literal false (expecting 's')"
  | .Fals => stateLit s c 'e' .EndValue "in literal false (expecting 'e')"
  | .N => stateLit s c 'u' .Nu "in literal null (expecting 'u')"
  | .Nu => stateLit s c 'l' .Nul "in literal null (expecting 'l')"
  | .Nul => stateLit s c 'l' .EndValue "in literal null (expecting 'l')"
  | .Error => (.scanError "", s)

/-- A response body as an `io.Reader`: the text it delivers and, when the stream
breaks instead of ending with `io.EOF`, the error it ends with. -/
structure Body where
  data : String
  err : Option String

/-- The function `io.ReadAll`. -/
def ReadAll (b : Body) : String × Option GoError := (b.data, b.err.map .plain)

/-- Outcome of the inner loop of `Decoder.readValue` over the buffered input. -/
inductive Scan where
  /-- The loop left through `break Input` after `n` code units. -/
  | value (n : Nat) : Scan
  /-- The scanner returned `scanError`. -/
  | syntaxError (msg : String) : Scan
  /-- The input ran out; the scanner is left in state `s`. -/
  | more (s : Scanner) : Scan
  deriving DecidableEq, Repr

/-- The inner loop of `Decoder.readValue`: feed the input to the scanner from
position `scanp` on. -/
def scanBuf (s : Scanner) : List Char → Nat → Scan
  | [], _ => .more s
  | c :: cs, scanp =>
    match s.doStep c with
    | (.scanEnd, _) => .value scanp
    | (.scanEndObject, s1) =>
      if (stateEndValue s1 ' ').1 = .scanEnd then .value (scanp + 1)
      else scanBuf (stateEndValue s1 ' ').2 cs (scanp + 1)
    | (.scanEndArray, s1) =>
      if (stateEndValue s1 ' ').1 = .scanEnd then .value (scanp + 1)
      else scanBuf (stateEndValue s1 ' ').2 cs (scanp + 1)
    | (.scanError msg, _) => .syntaxError msg
    | (_, s1) => scanBuf s1 cs (scanp + 1)

/-- The method `Decoder.readValue` on a fresh decoder: the length of the first JSON
value of the stream, leading white space included. A syntax error wins over a
broken stream, a broken stream over an incomplete value; at the end of the stream
a value that only needed a delimiter is complete, otherwise the error is
`io.ErrUnexpectedEOF`, or `io.EOF` when there was nothing but white space. -/
def readValue (b : Body) : Except GoError Nat :=
  match scanBuf ⟨.BeginValue, []⟩ b.data.data 0 with
  | .value n => .ok n
  | .syntaxError msg => .error (.plain msg)
  | .more s =>
    match b.err with
    | some e => .error (.plain e)
    | none =>
      if (s.doStep ' ').1 = .scanEnd then .ok b.data.data.length
      else if b.data.data.any (fun c => !isSpace c) then .error (.plain "unexpected EOF")
      else .error (.plain "EOF")

/-- The call `json.NewDecoder(body).Decode(&raw)` with `raw` a `json.RawMessage`:
the text of the first JSON value of the stream, without the white space before it. -/
def DecodeRawMessage (b : Body) : Except GoError String :=
  match readValue b with
  | .error e => .error e
  | .ok n => .ok ⟨(b.data.data.take n).dropWhile isSpace⟩

/-! ## `net/http` -/

/-- A `context.Context`, known by its identity only. -/
structure Context where
  id : Nat
  deriving DecidableEq, Repr

/-- The type `http.Header`: the values stored under each key of the map. -/
abbrev Header := String → List String

/-- The function `validHeaderFieldByte` of `net/textproto`: the token characters. -/
def validHeaderFieldByte (c : Char) : Bool :=
  ('a' ≤ c ∧ c ≤ 'z') || ('A' ≤ c ∧ c ≤ 'Z') || ('0' ≤ c ∧ c ≤ '9') ||
    "!#$%&*+-.^_|~".data.contains c || c.toNat = 39 || c.toNat = 96

/-- The capitalising loop of `canonicalMIMEHeaderKey`. -/
def canonLoop : Bool → List Char → List Char
  | _, [] => []
  | upper, c :: cs =>
    let c1 : Char :=
      if upper ∧ 'a' ≤ c ∧ c ≤ 'z' then Char.ofNat (c.toNat - 32)
      else if ¬ upper ∧ 'A' ≤ c ∧ c ≤ 'Z' then Char.ofNat (c.toNat + 32)
      else c
    c1 :: canonLoop (c1 = '-') cs

/-- The function `textproto.CanonicalMIMEHeaderKey`: a key made of token characters
gets its first letter and every letter after a hyphen in upper case and the other
letters in lower case; any other key is returned as it is. -/
def CanonicalMIMEHeaderKey (s : String) : String :=
  if s.data.all validHeaderFieldByte then ⟨canonLoop true s.data⟩ else s

/-- The method `Header.Add`: append `value` to the values stored under the
canonical form of `key`. -/
def Header.Add (h : Header) (key value : String) : Header :=
  fun k => if k = CanonicalMIMEHeaderKey key then h k ++ [value] else h k

/-- The method `Header.Get`: the first value stored under the canonical form of
`key`, the empty string when there is none. -/
def Header.Get (h : Header) (key : String) : String :=
  (h (CanonicalMIMEHeaderKey key)).headD ""

/-- The header of `http.NewRequest`: an empty map. -/
def Header.empty : Header := fun _ => []

/-- The fields of `http.Request` the package touches. The header map is not nil:
`http.Client` makes it so before it calls the round tripper. -/
structure Request where
  ctx : Context
  Method : String
  URL : String
  Header : Header
  Body : String

/-- The fields of `http.Response` the package touches. -/
structure Response where
  StatusCode : Nat
  Body : Body

/-- The type `time.Time`, as seconds and nanoseconds. -/
structure Time where
  sec : Int
  nsec : Nat
  deriving DecidableEq, Repr

/-- The type `SessionInfo`. -/
structure SessionInfo where
  User : String
  CreatedTime : Time
  deriving DecidableEq, Repr

/-- What the package takes from outside: the network in a state `σ`, `net/url`,
the reflective half of `encoding/json` and the print tables of `strconv`. The
errors of these libraries are given by their messages. -/
structure Env (σ : Type) where
  /-- The function `url.JoinPath`. -/
  JoinPath : String → String → Except String String
  /-- The error, if any, of `url.Parse` inside `http.NewRequestWithContext`. -/
  Parse : String → Option String
  /-- The method `Do` of the zero `http.Client`: send a request, get a response or
  an error (transport failure, cancelled context, ...). -/
  Do : σ → Request → Except String Response × σ
  /-- The call `http.DefaultTransport.RoundTrip`. -/
  Transport : σ → Request → (Option Response × Option String) × σ
  /-- Unmarshalling the text of a JSON value into a `SessionInfo`. -/
  Unmarshal : String → Except String SessionInfo
  /-- The tables of `strconv.IsPrint` above U+00FF. -/
  isPrintTable : Char → Bool

/-- The constant `http.MethodGet`. -/
def MethodGet : String := "GET"

/-- The constant `http.MethodPost`. -/
def MethodPost : String := "POST"

/-- The constant `http.StatusOK`. -/
def StatusOK : Nat := 200

/-- The constant `http.StatusCreated`. -/
def StatusCreated : Nat := 201

/-- The constant `http.StatusUnauthorized`. -/
def StatusUnauthorized : Nat := 401

/-- The function `http.NewRequestWithContext` with `http.NoBody`, a valid method
and a non-nil context. -/
def NewRequestWithContext {σ : Type} (E : Env σ) (ctx : Context) (method url : String) :
    Except GoError Request :=
  match E.Parse url with
  | some e => .error (.plain e)
  | none => .ok { ctx := ctx, Method := method, URL := url, Header := Header.empty, Body := "" }

/-- The call `json.NewDecoder(body).Decode(&v)` with `v` a `SessionInfo`: read one
JSON value, then unmarshal it. -/
def DecodeSessionInfo {σ : Type} (E : Env σ) (b : Body) : Except GoError SessionInfo :=
  match readValue b with
  | .error e => .error e
  | .ok n =>
    match E.Unmarshal ⟨b.data.data.take n⟩ with
    | .error e => .error (.plain e)
    | .ok v => .ok v

/-! ## `client.go` -/

/-- A `*url.URL`, represented by the text its method `String` renders. -/
structure URL where
  text : String
  deriving DecidableEq, Repr

/-- The method `URL.String`. -/
def URL.String (u : URL) : String := u.text

/-- A `sync.Mutex`. -/
structure Mutex where
  locked : Bool
  deriving DecidableEq, Repr

/-- The type `Client`. The embedded `http.Client` only holds the round tripper
that points back to this value and has no field of its own here. -/
structure Client where
  BaseURL : URL
  username : String
  password : String
  Token : String
  Mutex : Mutex
  deriving DecidableEq, Repr

/-- The function `NewClient`, with `url.Parse` passed as `parse`. -/
def NewClient (parse : String → Except String URL) (baseURL username password : String) :
    Option Client × Option GoError :=
  match parse baseURL with
  | .error err => (none, some (.plain err))
  | .ok parsedBase =>
    (some { BaseURL := parsedBase, username := username, password := password,
            Token := "", Mutex := ⟨false⟩ }, none)

/-! ## `auth.go` -/

/-- The constant `vmwareSessionIDHeader`. -/
def vmwareSessionIDHeader : String := "vmware-api-session-id"

/-- What a run does to the world and to the shared state, in order. -/
inductive Event where
  /-- The call `rt.cli.Mutex.Lock()` returned. -/
  | lock : Event
  /-- The call `rt.cli.Mutex.Unlock()`. -/
  | unlock : Event
  /-- A read of `rt.cli.Token`, with the value read. -/
  | tokenRead (token : String) : Event
  /-- The assignment `rt.cli.Token = token`. -/
  | tokenWrite (token : String) : Event
  /-- A call of `getSessionInfo`, with its `token` argument. -/
  | getSessionInfo (token : String) : Event
  /-- A call of `createSessionKey`, with its `baseAuthFormatValue` argument. -/
  | createSessionKey (baseAuthFormatValue : String) : Event
  /-- A request handed to `cli.Do` by the validator or the creator. -/
  | clientDo (req : Request) : Event
  /-- The statement `return &parsedResponseBody, nil` of `getSessionInfo`, called
  with `token`. -/
  | sessionValid (token : String) : Event
  /-- The statement `return strings.Trim(string(token), "\""), nil` of
  `createSessionKey`, with the token returned. -/
  | sessionCreated (token : String) : Event
  /-- The call `r.Header.Add(key, value)` on the caller's request. -/
  | headerAdd (key value : String) : Event
  /-- The call `log.Println(msg)`. -/
  | logPrintln (msg : String) : Event
  /-- The caller's request handed to `http.DefaultTransport.RoundTrip`. -/
  | transport (req : Request) : Event

/-- The state a call runs in: the client value behind `rt.cli`, the network, and
the trace of what happened so far. -/
structure State (σ : Type) where
  cli : Client
  net : σ
  trace : List Event

/-- The function `getSessionInfo`: its results, the network after the call and
the events of the call. -/
def getSessionInfo {σ : Type} (E : Env σ) (net : σ) (ctx : Context) (baseURL : URL)
    (token : String) : (Option SessionInfo × Option GoError) × σ × List Event :=
  match E.JoinPath baseURL.String "/api/session" with
  | .error err => ((none, some (.plain err)), net, [.getSessionInfo token])
  | .ok requestPath =>
    match NewRequestWithContext E ctx MethodGet requestPath with
    | .error err => ((none, some err), net, [.getSessionInfo token])
    | .ok req =>
      let req := { req with Header := req.Header.Add vmwareSessionIDHeader token }
      match E.Do net req with
      | (.error err, net) =>
        ((none, some (.plain err)), net, [.getSessionInfo token, .clientDo req])
      | (.ok resp, net) =>
        if resp.StatusCode = StatusOK then
          match DecodeSessionInfo E resp.Body with
          | .error err =>
            ((none, some (.wrap "can't decode response body: " err)), net,
              [.getSessionInfo token, .clientDo req])
          | .ok parsedResponseBody =>
            ((some parsedResponseBody, none), net,
              [.getSessionInfo token, .clientDo req, .sessionValid token])
        else if resp.StatusCode = StatusUnauthorized then
          ((none, some .errUnauthorized), net, [.getSessionInfo token, .clientDo req])
        else
          match DecodeRawMessage resp.Body with
          | .error err =>
            ((none, some (.wrap ("can't decode body of unsuccess response with status code " ++
              fmtD resp.StatusCode ++ ": ") err)), net, [.getSessionInfo token, .clientDo req])
          | .ok rawResponseBody =>
            ((none, some (.plain ("incorrect response, status " ++ fmtD resp.StatusCode ++
              ", body " ++ fmtVRawMessage rawResponseBody))), net,
              [.getSessionInfo token, .clientDo req])

/-- The function `createSessionKey`: its results, the network after the call and
the events of the call. -/
def createSessionKey {σ : Type} (E : Env σ) (net : σ) (ctx : Context) (baseURL : URL)
    (baseAuthFormatValue : String) : (String × Option GoError) × σ × List Event :=
  match E.JoinPath baseURL.String "/api/session" with
  | .error err => (("", some (.plain err)), net, [.createSessionKey baseAuthFormatValue])
  | .ok requestPath =>
    match NewRequestWithContext E ctx MethodPost requestPath with
    | .error err => (("", some err), net, [.createSessionKey baseAuthFormatValue])
    | .ok req =>
      let req := { req with
        Header := req.Header.Add "authorization" ("Basic " ++ baseAuthFormatValue) }
      let req := { req with Header := req.Header.Add "Content-type" "application/json" }
      match E.Do net req with
      | (.error err, net) =>
        (("", some (.plain err)), net, [.createSessionKey baseAuthFormatValue, .clientDo req])
      | (.ok resp, net) =>
        if resp.StatusCode ≠ StatusCreated then
          match DecodeRawMessage resp.Body with
          | .error err =>
            (("", some (.wrap ("can't decode body of unsuccess response with status code " ++
              fmtD resp.StatusCode ++ ": ") err)), net,
              [.createSessionKey baseAuthFormatValue, .clientDo req])
          | .ok rawResponseBody =>
            (("", some (.plain ("incorrect response, status " ++ fmtD resp.StatusCode ++
              ", body " ++ Quote E.isPrintTable rawResponseBody))), net,
              [.createSessionKey baseAuthFormatValue, .clientDo req])
        else
          match ReadAll resp.Body with
          | (_, some err) =>
            (("", some err), net, [.createSessionKey baseAuthFormatValue, .clientDo req])
          | (token, none) =>
            ((Trim token "\"", none), net,
              [.createSessionKey baseAuthFormatValue, .clientDo req,
                .sessionCreated (Trim token "\"")])

/-- What `RoundTrip` leaves behind: its two results, the caller's request object
as the call left it, and the state. -/
structure Result (σ : Type) where
  resp : Option Response
  err : Option GoError
  r : Request
  st : State σ

/-- The call `rt.cli.Mutex.Lock()` in a run on its own: it returns when the mutex
is free and never returns (`none`) when it is held. -/
def State.Lock {σ : Type} (st : State σ) : Option (State σ) :=
  if st.cli.Mutex.locked then none
  else some { st with cli := { st.cli with Mutex := ⟨true⟩ }, trace := st.trace ++ [Event.lock] }

/-- The call `rt.cli.Mutex.Unlock()`; unlocking a free mutex is a fatal error (`none`). -/
def State.Unlock {σ : Type} (st : State σ) : Option (State σ) :=
  if st.cli.Mutex.locked then
    some { st with cli := { st.cli with Mutex := ⟨false⟩ }, trace := st.trace ++ [Event.unlock] }
  else none

/-- The statement `return http.DefaultTransport.RoundTrip(r)`. -/
def State.send {σ : Type} (E : Env σ) (st : State σ) (r : Request) : Result σ :=
  { resp := (E.Transport st.net r).1.1, err := (E.Transport st.net r).1.2.map .plain, r := r,
    st := { st with net := (E.Transport st.net r).2, trace := st.trace ++ [Event.transport r] } }

/-- The method `authRoundTrip.RoundTrip`, for the round tripper whose `cli` is
the client of the state. -/
def RoundTrip {σ : Type} (E : Env σ) (st : State σ) (r : Request) : Option (Result σ) :=
  match st.Lock with
  | none => none
  | some st =>
    let v := getSessionInfo E st.net r.ctx st.cli.BaseURL st.cli.Token
    let st := { st with
      net := v.2.1, trace := st.trace ++ [Event.tokenRead st.cli.Token] ++ v.2.2 }
    match v.1.2 with
    | some err =>
      if ¬ errorsIs err .errUnauthorized then
        match st.Unlock with
        | none => none
        | some st =>
          some { resp := none, err := some (.wrap "can't get session info: " err), r := r, st := st }
      else
        let c := createSessionKey E st.net r.ctx st.cli.BaseURL
          (EncodeToString (st.cli.username ++ ":" ++ st.cli.password))
        let st := { st with net := c.2.1, trace := st.trace ++ c.2.2 }
        match c.1.2 with
        | some err =>
          match st.Unlock with
          | none => none
          | some st =>
            some { resp := none, err := some (.wrap "can't create session: " err), r := r, st := st }
        | none =>
          let token := c.1.1
          let st := { st with trace := st.trace ++ [Event.logPrintln "new session created"] }
          let st := { st with
            cli := { st.cli with Token := token }, trace := st.trace ++ [Event.tokenWrite token] }
          let r := { r with Header := r.Header.Add vmwareSessionIDHeader token }
          let st := { st with trace := st.trace ++ [Event.headerAdd vmwareSessionIDHeader token] }
          match st.Unlock with
          | none => none
          | some st => some (st.send E r)
    | none =>
      let r := { r with Header := r.Header.Add vmwareSessionIDHeader st.cli.Token }
      let st := { st with
        trace := st.trace ++ [Event.tokenRead st.cli.Token, Event.headerAdd vmwareSessionIDHeader st.cli.Token] }
      match st.Unlock with
      | none => none
      | some st => some (st.send E r)


/-! ## Vocabulary of the statements -/

/-- The request `getSessionInfo` hands to `cli.Do`. -/
def getRequest (ctx : Context) (requestPath token : String) : Request :=
  { ctx := ctx, Method := MethodGet, URL := requestPath,
    Header := Header.empty.Add vmwareSessionIDHeader token, Body := "" }

/-- The request `createSessionKey` hands to `cli.Do`. -/
def postRequest (ctx : Context) (requestPath baseAuthFormatValue : String) : Request :=
  { ctx := ctx, Method := MethodPost, URL := requestPath,
    Header := (Header.empty.Add "authorization" ("Basic " ++ baseAuthFormatValue)).Add
      "Content-type" "application/json",
    Body := "" }

/-- The third argument of the call of `createSessionKey` in `RoundTrip`. -/
def basicAuth (cli : Client) : String := EncodeToString (cli.username ++ ":" ++ cli.password)

/-- The call of `getSessionInfo` that `RoundTrip` makes from state `st` for request `r`. -/
def validation {σ : Type} (E : Env σ) (st : State σ) (r : Request) :
    (Option SessionInfo × Option GoError) × σ × List Event :=
  getSessionInfo E st.net r.ctx st.cli.BaseURL st.cli.Token

/-- The call of `createSessionKey` that `RoundTrip` makes after that validation. -/
def creation {σ : Type} (E : Env σ) (st : State σ) (r : Request) :
    (String × Option GoError) × σ × List Event :=
  createSessionKey E (validation E st r).2.1 r.ctx st.cli.BaseURL (basicAuth st.cli)

/-- Introspection answers `resp`: the validator's request could be built and
`cli.Do` returned `resp` for it. -/
def IntrospectionAnswers {σ : Type} (E : Env σ) (st : State σ) (r : Request)
    (resp : Response) : Prop :=
  ∃ path, E.JoinPath st.cli.BaseURL.String "/api/session" = .ok path ∧ E.Parse path = none ∧
    (E.Do st.net (getRequest r.ctx path st.cli.Token)).1 = .ok resp

/-- Creation answers `resp`: the creator's request could be built and `cli.Do`
returned `resp` for it, on the network as the validation left it. -/
def CreationAnswers {σ : Type} (E : Env σ) (st : State σ) (r : Request)
    (resp : Response) : Prop :=
  ∃ path, E.JoinPath st.cli.BaseURL.String "/api/session" = .ok path ∧ E.Parse path = none ∧
    (E.Do (validation E st r).2.1 (postRequest r.ctx path (basicAuth st.cli))).1 = .ok resp

/-- The events a call added to the trace. -/
def newEvents {σ : Type} (st : State σ) (res : Result σ) : List Event :=
  res.st.trace.drop st.trace.length

/-- Calls of `createSessionKey`. -/
def Event.isCreate : Event → Bool
  | .createSessionKey _ => true
  | _ => false

/-- Events that the lock is meant to protect: everything except the mutex
operations themselves and the delegation to the transport. -/
def Event.guarded : Event → Bool
  | .lock => false
  | .unlock => false
  | .transport _ => false
  | _ => true

/-! ## A scripted environment for concrete runs -/

/-- The text of a session description. -/
def sampleSession : String := "\x7b\"user\":\"root\",\"created_time\":\"2024-01-01T00:00:00Z\"\x7d"

/-- An environment whose server answers introspection as `get` says for the token
presented and creation with `post`; the caller's own request is answered 200.
`JoinPath` is concatenation, which is what `url.JoinPath` does for a base without
path and an element starting with a slash. -/
def scripted (get : String → Except String Response) (post : Except String Response) :
    Env Unit where
  JoinPath base elem := .ok (base ++ elem)
  Parse _ := none
  Do _ req :=
    (if req.Method = MethodGet then get (req.Header.Get vmwareSessionIDHeader) else post, ())
  Transport _ _ := ((some ⟨200, ⟨"ok", none⟩⟩, none), ())
  Unmarshal raw :=
    if raw = sampleSession then .ok ⟨"root", ⟨1704067200, 0⟩⟩
    else .error "json: cannot unmarshal into Go value of type vccli.SessionInfo"
  isPrintTable _ := true

/-- A client as `NewClient` returns it, with the given token. -/
def sampleClient (token : String) : Client :=
  { BaseURL := ⟨"https://vc.example"⟩, username := "user", password := "pass",
    Token := token, Mutex := ⟨false⟩ }

/-- A state with an empty trace. -/
def sampleState (token : String) : State Unit :=
  { cli := sampleClient token, net := (), trace := [] }

/-- A caller's request without headers. -/
def sampleRequest : Request :=
  { ctx := ⟨0⟩, Method := MethodGet, URL := "https://vc.example/api/vcenter/vm",
    Header := Header.empty, Body := "" }

/-- A server on which the token `abc123` is live and creation returns it quoted. -/
def liveServer : Env Unit :=
  scripted (fun token => if token = "abc123" then .ok ⟨200, ⟨sampleSession, none⟩⟩
    else .ok ⟨401, ⟨"", none⟩⟩) (.ok ⟨201, ⟨"\"abc123\"", none⟩⟩)

/-- A server that answers introspection with status 200 and a page of HTML. -/
def htmlServer : Env Unit :=
  scripted (fun _ => .ok ⟨200, ⟨"<html>", none⟩⟩) (.error "unused")

/-- A server on which no token is live and creation is refused with status 403. -/
def forbiddenServer : Env Unit :=
  scripted (fun _ => .ok ⟨401, ⟨"", none⟩⟩) (.ok ⟨403, ⟨"Forbidden", none⟩⟩)

/-- A server that answers introspection with status 500 and a body that is not JSON. -/
def errorPageServer : Env Unit :=
  scripted (fun _ => .ok ⟨500, ⟨"Internal Server Error", none⟩⟩) (.error "unused")

/-- A server that answers introspection with status 500 and a JSON body. -/
def boomServer : Env Unit :=
  scripted (fun _ => .ok ⟨500, ⟨"\x7b\"error\":\"boom\"\x7d", none⟩⟩) (.error "unused")

/-- A server on which no token is live and creation is refused with status 403 and
a JSON body. -/
def forbiddenJSONServer : Env Unit :=
  scripted (fun _ => .ok ⟨401, ⟨"", none⟩⟩) (.ok ⟨403, ⟨"\x7b\"error\":\"boom\"\x7d", none⟩⟩)

/-- The requests handed to the transport, in order. -/
def delegated : List Event → List Request
  | [] => []
  | .transport req :: es => req :: delegated es
  | _ :: es => delegated es

/-- A caller's request that already has a session header. -/
def staleRequest : Request :=
  { sampleRequest with Header := Header.empty.Add "Vmware-Api-Session-Id" "old" }

/-! ## Concurrent calls on one client

Several calls of `RoundTrip` on the same client, interleaved. A step of a call is
the part of `RoundTrip` up to and including its next blocking operation: the
acquisition of the mutex, the exchange of the validator, the exchange of the
creator, the release of the mutex, the delegation to the transport. What a call
does between two of these touches only the client, which it does while holding the
mutex, and its own request. `sync.Mutex` orders the critical sections, so an
execution is an interleaving of such steps. -/

/-- Where a call of `RoundTrip` stands. -/
inductive Pc where
  /-- Before `rt.cli.Mutex.Lock()`. -/
  | entry : Pc
  /-- The mutex is held; before the call of `getSessionInfo`. -/
  | locked : Pc
  /-- The call of `getSessionInfo` returned `res`. -/
  | validated (res : Option SessionInfo × Option GoError) : Pc
  /-- The call of `createSessionKey` returned `res`. -/
  | created (res : String × Option GoError) : Pc
  /-- The mutex is released; before `http.DefaultTransport.RoundTrip(r)`. -/
  | unlocked : Pc
  /-- The call returned. -/
  | returned (resp : Option Response) (err : Option GoError) : Pc

/-- One call: the caller's request object and the point the call has reached. -/
structure Call where
  r : Request
  pc : Pc

/-- The client shared by the calls, the network, the trace (each event with the
index of the call it belongs to) and the calls. -/
structure System (σ : Type) where
  cli : Client
  net : σ
  trace : List (Nat × Event)
  calls : Nat → Option Call

/-- The calls for the requests `rs`, none of them started, on a client and a network. -/
def System.init {σ : Type} (cli : Client) (net : σ) (rs : List Request) : System σ :=
  { cli := cli, net := net, trace := [],
    calls := fun i => (rs.get? i).map (fun r => { r := r, pc := .entry }) }

/-- The call `i` moves to `c`. -/
def System.move {σ : Type} (s : System σ) (i : Nat) (c : Call) : Nat → Option Call :=
  fun j => if j = i then some c else s.calls j

/-- The next step of call `i`, when it can take one: `none` when the call does not
exist, has returned, waits for the mutex, or would unlock a free mutex. -/
def System.step {σ : Type} (E : Env σ) (s : System σ) (i : Nat) : Option (System σ) :=
  match s.calls i with
  | none => none
  | some c =>
    match c.pc with
    | .entry =>
      if s.cli.Mutex.locked then none
      else some { s with
        cli := { s.cli with Mutex := ⟨true⟩ }, trace := s.trace ++ [(i, Event.lock)],
        calls := s.move i { c with pc := .locked } }
    | .locked =>
      let v := getSessionInfo E s.net c.r.ctx s.cli.BaseURL s.cli.Token
      some { s with
        net := v.2.1,
        trace := s.trace ++ (i, Event.tokenRead s.cli.Token) :: v.2.2.map (Prod.mk i),
        calls := s.move i { c with pc := .validated v.1 } }
    | .validated res =>
      match res.2 with
      | some err =>
        if ¬ errorsIs err .errUnauthorized then
          if s.cli.Mutex.locked then
            some { s with
              cli := { s.cli with Mutex := ⟨false⟩ }, trace := s.trace ++ [(i, Event.unlock)],
              calls := s.move i { c with
                pc := .returned none (some (.wrap "can't get session info: " err)) } }
          else none
        else
          let k := createSessionKey E s.net c.r.ctx s.cli.BaseURL
            (EncodeToString (s.cli.username ++ ":" ++ s.cli.password))
          some { s with
            net := k.2.1, trace := s.trace ++ k.2.2.map (Prod.mk i),
            calls := s.move i { c with pc := .created k.1 } }
      | none =>
        if s.cli.Mutex.locked then
          some { s with
            cli := { s.cli with Mutex := ⟨false⟩ },
            trace := s.trace ++ [(i, Event.tokenRead s.cli.Token),
              (i, Event.headerAdd vmwareSessionIDHeader s.cli.Token), (i, Event.unlock)],
            calls := s.move i
              { r := { c.r with Header := c.r.Header.Add vmwareSessionIDHeader s.cli.Token },
                pc := .unlocked } }
        else none
    | .created res =>
      match res.2 with
      | some err =>
        if s.cli.Mutex.locked then
          some { s with
            cli := { s.cli with Mutex := ⟨false⟩ }, trace := s.trace ++ [(i, Event.unlock)],
            calls := s.move i { c with
              pc := .returned none (some (.wrap "can't create session: " err)) } }
        else none
      | none =>
        if s.cli.Mutex.locked then
          some { s with
            cli := { s.cli with Token := res.1, Mutex := ⟨false⟩ },
            trace := s.trace ++ [(i, Event.logPrintln "new session created"),
              (i, Event.tokenWrite res.1), (i, Event.headerAdd vmwareSessionIDHeader res.1),
              (i, Event.unlock)],
            calls := s.move i
              { r := { c.r with Header := c.r.Header.Add vmwareSessionIDHeader res.1 },
                pc := .unlocked } }
        else none
    | .unlocked =>
      some { s with
        net := (E.Transport s.net c.r).2, trace := s.trace ++ [(i, Event.transport c.r)],
        calls := s.move i { c with
          pc := .returned (E.Transport s.net c.r).1.1 ((E.Transport s.net c.r).1.2.map .plain) } }
    | .returned _ _ => none

/-- Run a schedule: the calls named step one after the other; `none` when a call
named cannot step. -/
def System.exec {σ : Type} (E : Env σ) (s : System σ) : List Nat → Option (System σ)
  | [] => some s
  | i :: sched =>
    match s.step E i with
    | none => none
    | some s1 => s1.exec E sched

/-- Whether a call holds the mutex at this point. -/
def Pc.holds : Pc → Bool
  | .locked => true
  | .validated _ => true
  | .created _ => true
  | _ => false

/-- The tokens returned by the creation calls that were executed, in order. -/
def createdTokens : List (Nat × Event) → List String
  | [] => []
  | (_, .sessionCreated token) :: es => token :: createdTokens es
  | _ :: es => createdTokens es

/-- What an observer of the trace knows: which call holds the mutex, the value of
`Client.Token`, and the token that the holder has had validated or created since it
acquired the mutex. -/
structure Monitor where
  holder : Option Nat
  token : String
  vouched : Option String
  deriving DecidableEq, Repr

/-- The observer's knowledge after one more event. -/
def Monitor.observe (m : Monitor) (x : Nat × Event) : Monitor :=
  match x.2 with
  | .lock => { m with holder := some x.1, vouched := none }
  | .unlock => { m with holder := none, vouched := none }
  | .tokenWrite token => { m with token := token }
  | .sessionValid token => { m with vouched := some token }
  | .sessionCreated token => { m with vouched := some token }
  | _ => m

/-- Whether an event respects the discipline: the mutex is acquired only when
free; the delegation is made by a call that does not hold it; everything else is
done by the holder. A read of the token, the validator's argument and a validated
token are the current value of `Client.Token`; the token written is the one just
created; the token attached is the current value and has been validated or created
since the holder acquired the mutex. -/
def Monitor.allows (m : Monitor) (x : Nat × Event) : Bool :=
  match x.2 with
  | .lock => decide (m.holder = none)
  | .transport _ => decide (m.holder ≠ some x.1)
  | .tokenRead token => decide (m.holder = some x.1 ∧ token = m.token)
  | .getSessionInfo token => decide (m.holder = some x.1 ∧ token = m.token)
  | .sessionValid token => decide (m.holder = some x.1 ∧ token = m.token)
  | .tokenWrite token => decide (m.holder = some x.1 ∧ m.vouched = some token)
  | .headerAdd key value =>
    decide (m.holder = some x.1 ∧ key = vmwareSessionIDHeader ∧ value = m.token ∧
      m.vouched = some value)
  | _ => decide (m.holder = some x.1)

/-- Whether every event of a trace respects the discipline, starting from `m`. -/
def Monitor.accepts : Monitor → List (Nat × Event) → Bool
  | _, [] => true
  | m, x :: xs => m.allows x && (m.observe x).accepts xs

/-- The observer's knowledge after a trace. -/
def Monitor.after (m : Monitor) (tr : List (Nat × Event)) : Monitor :=
  tr.foldl Monitor.observe m

/-- What holds of every state the calls can reach from a client `cli0` with a free
mutex: the trace respects the discipline; the observer's token is `Client.Token`;
the mutex is held exactly when the observer sees a holder, which is the one call
between its `Lock` and its `Unlock`; a call whose validation succeeded, or whose
creation succeeded, has its token vouched for; and `Client.Token` is the initial
token or one of the tokens created. -/
structure Inv {σ : Type} (cli0 : Client) (s : System σ) : Prop where
  acc : Monitor.accepts ⟨none, cli0.Token, none⟩ s.trace = true
  tok : (Monitor.after ⟨none, cli0.Token, none⟩ s.trace).token = s.cli.Token
  mutex : s.cli.Mutex.locked = (Monitor.after ⟨none, cli0.Token, none⟩ s.trace).holder.isSome
  holds : ∀ i, (Monitor.after ⟨none, cli0.Token, none⟩ s.trace).holder = some i ↔
    ∃ c, s.calls i = some c ∧ c.pc.holds = true
  vouchV : ∀ i c res, s.calls i = some c → c.pc = .validated res → res.2 = none →
    (Monitor.after ⟨none, cli0.Token, none⟩ s.trace).vouched = some s.cli.Token
  vouchC : ∀ i c res, s.calls i = some c → c.pc = .created res → res.2 = none →
    (Monitor.after ⟨none, cli0.Token, none⟩ s.trace).vouched = some res.1 ∧
      res.1 ∈ createdTokens s.trace
  origin : s.cli.Token = cli0.Token ∨ s.cli.Token ∈ createdTokens s.trace

/-- Every way `getSessionInfo` can go, with its results, the network it leaves and
its events. -/
theorem getSessionInfo_cases {σ : Type} (E : Env σ) (net : σ) (ctx : Context) (baseURL : URL)
    (token : String) :
    (∃ m, getSessionInfo E net ctx baseURL token =
        ((none, some (.plain m)), net, [.getSessionInfo token]) ∧
      ∀ path, E.JoinPath baseURL.String "/api/session" = .ok path → E.Parse path ≠ none) ∨
    (∃ path, E.JoinPath baseURL.String "/api/session" = .ok path ∧ E.Parse path = none ∧
      ∃ m, (E.Do net (getRequest ctx path token)).1 = .error m ∧
        getSessionInfo E net ctx baseURL token =
          ((none, some (.plain m)), (E.Do net (getRequest ctx path token)).2,
            [.getSessionInfo token, .clientDo (getRequest ctx path token)])) ∨
    (∃ path, E.JoinPath baseURL.String "/api/session" = .ok path ∧ E.Parse path = none ∧
      ∃ resp, (E.Do net (getRequest ctx path token)).1 = .ok resp ∧
        ((resp.StatusCode = 200 ∧ ∃ info, DecodeSessionInfo E resp.Body = .ok info ∧
            getSessionInfo E net ctx baseURL token =
              ((some info, none), (E.Do net (getRequest ctx path token)).2,
                [.getSessionInfo token, .clientDo (getRequest ctx path token),
                  .sessionValid token])) ∨
         (resp.StatusCode = 200 ∧ ∃ e, DecodeSessionInfo E resp.Body = .error e ∧
            getSessionInfo E net ctx baseURL token =
              ((none, some (.wrap "can't decode response body: " e)),
                (E.Do net (getRequest ctx path token)).2,
                [.getSessionInfo token, .clientDo (getRequest ctx path token)])) ∨
         (resp.StatusCode = 401 ∧
            getSessionInfo E net ctx baseURL token =
              ((none, some .errUnauthorized), (E.Do net (getRequest ctx path token)).2,
                [.getSessionInfo token, .clientDo (getRequest ctx path token)])) ∨
         (resp.StatusCode ≠ 200 ∧ resp.StatusCode ≠ 401 ∧
            ∃ e, DecodeRawMessage resp.Body = .error e ∧
            getSessionInfo E net ctx baseURL token =
              ((none, some (.wrap ("can't decode body of unsuccess response with status code " ++
                  fmtD resp.StatusCode ++ ": ") e)),
                (E.Do net (getRequest ctx path token)).2,
                [.getSessionInfo token, .clientDo (getRequest ctx path token)])) ∨
         (resp.StatusCode ≠ 200 ∧ resp.StatusCode ≠ 401 ∧
            ∃ raw, DecodeRawMessage resp.Body = .ok raw ∧
            getSessionInfo E net ctx baseURL token =
              ((none, some (.plain ("incorrect response, status " ++ fmtD resp.StatusCode ++
                  ", body " ++ fmtVRawMessage raw))),
                (E.Do net (getRequest ctx path token)).2,
                [.getSessionInfo token, .clientDo (getRequest ctx path token)])))) := by
  rcases hp : E.JoinPath baseURL.String "/api/session" with m | path
  · left; exact ⟨m, by simp [getSessionInfo, hp], by intro p h; cases h⟩
  · rcases hq : E.Parse path with _ | m
    · right
      rcases hE : E.Do net (getRequest ctx path token) with ⟨a, n⟩
      have hE2 := hE
      simp only [getRequest] at hE2
      rcases a with m | resp
      · left
        refine ⟨path, rfl, hq, m, by rw [hE], ?_⟩
        simp [getSessionInfo, hp, NewRequestWithContext, hq, hE, hE2, getRequest]
      · right
        refine ⟨path, rfl, hq, resp, by rw [hE], ?_⟩
        by_cases h200 : resp.StatusCode = 200
        · rcases hd : DecodeSessionInfo E resp.Body with e | info
          · right; left
            refine ⟨h200, e, rfl, ?_⟩
            simp [getSessionInfo, hp, NewRequestWithContext, hq, hE, hE2, getRequest, h200,
              StatusOK, hd]
          · left
            refine ⟨h200, info, rfl, ?_⟩
            simp [getSessionInfo, hp, NewRequestWithContext, hq, hE, hE2, getRequest, h200,
              StatusOK, hd]
        · by_cases h401 : resp.StatusCode = 401
          · right; right; left
            refine ⟨h401, ?_⟩
            simp [getSessionInfo, hp, NewRequestWithContext, hq, hE, hE2, getRequest, h401,
              StatusOK, StatusUnauthorized]
          · rcases hd : DecodeRawMessage resp.Body with e | raw
            · right; right; right; left
              refine ⟨h200, h401, e, rfl, ?_⟩
              simp [getSessionInfo, hp, NewRequestWithContext, hq, hE, hE2, getRequest, h200, h401,
                StatusOK, StatusUnauthorized, hd]
            · right; right; right; right
              refine ⟨h200, h401, raw, rfl, ?_⟩
              simp [getSessionInfo, hp, NewRequestWithContext, hq, hE, hE2, getRequest, h200, h401,
                StatusOK, StatusUnauthorized, hd]
    · left
      refine ⟨m, ?_, ?_⟩
      · simp [getSessionInfo, hp, NewRequestWithContext, hq]
      · intro p h; cases h; simp [hq]


/-- Every way `createSessionKey` can go, with its results, the network it leaves
and its events. -/
theorem createSessionKey_cases {σ : Type} (E : Env σ) (net : σ) (ctx : Context) (baseURL : URL)
    (auth : String) :
    (∃ m, createSessionKey E net ctx baseURL auth =
        (("", some (.plain m)), net, [.createSessionKey auth]) ∧
      ∀ path, E.JoinPath baseURL.String "/api/session" = .ok path → E.Parse path ≠ none) ∨
    (∃ path, E.JoinPath baseURL.String "/api/session" = .ok path ∧ E.Parse path = none ∧
      ∃ m, (E.Do net (postRequest ctx path auth)).1 = .error m ∧
        createSessionKey E net ctx baseURL auth =
          (("", some (.plain m)), (E.Do net (postRequest ctx path auth)).2,
            [.createSessionKey auth, .clientDo (postRequest ctx path auth)])) ∨
    (∃ path, E.JoinPath baseURL.String "/api/session" = .ok path ∧ E.Parse path = none ∧
      ∃ resp, (E.Do net (postRequest ctx path auth)).1 = .ok resp ∧
        ((resp.StatusCode ≠ 201 ∧ ∃ e, DecodeRawMessage resp.Body = .error e ∧
            createSessionKey E net ctx baseURL auth =
              (("", some (.wrap ("can't decode body of unsuccess response with status code " ++
                  fmtD resp.StatusCode ++ ": ") e)),
                (E.Do net (postRequest ctx path auth)).2,
                [.createSessionKey auth, .clientDo (postRequest ctx path auth)])) ∨
         (resp.StatusCode ≠ 201 ∧ ∃ raw, DecodeRawMessage resp.Body = .ok raw ∧
            createSessionKey E net ctx baseURL auth =
              (("", some (.plain ("incorrect response, status " ++ fmtD resp.StatusCode ++
                  ", body " ++ Quote E.isPrintTable raw))),
                (E.Do net (postRequest ctx path auth)).2,
                [.createSessionKey auth, .clientDo (postRequest ctx path auth)])) ∨
         (resp.StatusCode = 201 ∧ ∃ m, resp.Body.err = some m ∧
            createSessionKey E net ctx baseURL auth =
              (("", some (.plain m)), (E.Do net (postRequest ctx path auth)).2,
                [.createSessionKey auth, .clientDo (postRequest ctx path auth)])) ∨
         (resp.StatusCode = 201 ∧ resp.Body.err = none ∧
            createSessionKey E net ctx baseURL auth =
              ((Trim resp.Body.data "\"", none), (E.Do net (postRequest ctx path auth)).2,
                [.createSessionKey auth, .clientDo (postRequest ctx path auth),
                  .sessionCreated (Trim resp.Body.data "\"")])))) := by
  rcases hp : E.JoinPath baseURL.String "/api/session" with m | path
  · left; exact ⟨m, by simp [createSessionKey, hp], by intro p h; cases h⟩
  · rcases hq : E.Parse path with _ | m
    · right
      rcases hE : E.Do net (postRequest ctx path auth) with ⟨a, n⟩
      have hE2 := hE
      simp only [postRequest] at hE2
      rcases a with m | resp
      · left
        refine ⟨path, rfl, hq, m, by rw [hE], ?_⟩
        simp [createSessionKey, hp, NewRequestWithContext, hq, hE, hE2, postRequest]
      · right
        refine ⟨path, rfl, hq, resp, by rw [hE], ?_⟩
        by_cases h201 : resp.StatusCode = 201
        · rcases hb : resp.Body.err with _ | m
          · right; right; right
            refine ⟨h201, rfl, ?_⟩
            simp [createSessionKey, hp, NewRequestWithContext, hq, hE, hE2, postRequest, h201,
              StatusCreated, ReadAll, hb]
          · right; right; left
            refine ⟨h201, m, rfl, ?_⟩
            simp [createSessionKey, hp, NewRequestWithContext, hq, hE, hE2, postRequest, h201,
              StatusCreated, ReadAll, hb]
        · rcases hd : DecodeRawMessage resp.Body with e | raw
          · left
            refine ⟨h201, e, rfl, ?_⟩
            simp [createSessionKey, hp, NewRequestWithContext, hq, hE, hE2, postRequest, h201,
              StatusCreated, hd]
          · right; left
            refine ⟨h201, raw, rfl, ?_⟩
            simp [createSessionKey, hp, NewRequestWithContext, hq, hE, hE2, postRequest, h201,
              StatusCreated, hd]
    · left
      refine ⟨m, ?_, ?_⟩
      · simp [createSessionKey, hp, NewRequestWithContext, hq]
      · intro p h; cases h; simp [hq]

/-- The errors of `Decoder.readValue` wrap nothing. -/
theorem readValue_error_plain (b : Body) (e : GoError) (h : readValue b = .error e) :
    ∃ m, e = .plain m := by
  unfold readValue at h
  split at h
  · cases h
  · cases h; exact ⟨_, rfl⟩
  · split at h
    · cases h; exact ⟨_, rfl⟩
    · split at h
      · cases h
      · split at h <;> cases h <;> exact ⟨_, rfl⟩

/-- The errors of decoding into a `json.RawMessage` wrap nothing. -/
theorem DecodeRawMessage_error_plain (b : Body) (e : GoError)
    (h : DecodeRawMessage b = .error e) : ∃ m, e = .plain m := by
  unfold DecodeRawMessage at h
  split at h
  · cases h; exact readValue_error_plain b _ (by assumption)
  · cases h

/-- The errors of decoding into a `SessionInfo` wrap nothing. -/
theorem DecodeSessionInfo_error_plain {σ : Type} (E : Env σ) (b : Body) (e : GoError)
    (h : DecodeSessionInfo E b = .error e) : ∃ m, e = .plain m := by
  unfold DecodeSessionInfo at h
  split at h
  · cases h; exact readValue_error_plain b _ (by assumption)
  · split at h
    · cases h; exact ⟨_, rfl⟩
    · cases h

/-- A plain error is not the sentinel. -/
theorem errorsIs_plain (m : String) : errorsIs (.plain m) .errUnauthorized = false := by
  simp [errorsIs]

/-- A wrapping error is the sentinel exactly when what it wraps is. -/
theorem errorsIs_wrap (pre : String) (e : GoError) :
    errorsIs (.wrap pre e) .errUnauthorized = errorsIs e .errUnauthorized := by
  simp [errorsIs]

/-- The sentinel is the sentinel. -/
theorem errorsIs_sentinel : errorsIs .errUnauthorized .errUnauthorized = true := by
  simp [errorsIs]

/-- When introspection answers `resp`, the validation goes by the status of `resp`. -/
theorem validation_answers {σ : Type} (E : Env σ) (st : State σ) (r : Request) (resp : Response)
    (h : IntrospectionAnswers E st r resp) :
    ∃ path, E.JoinPath st.cli.BaseURL.String "/api/session" = .ok path ∧ E.Parse path = none ∧
      (E.Do st.net (getRequest r.ctx path st.cli.Token)).1 = .ok resp ∧
      (validation E st r).2.1 = (E.Do st.net (getRequest r.ctx path st.cli.Token)).2 ∧
      ((resp.StatusCode = 200 ∧ ∃ info, DecodeSessionInfo E resp.Body = .ok info ∧
          (validation E st r).1 = (some info, none) ∧
          (validation E st r).2.2 = [.getSessionInfo st.cli.Token,
            .clientDo (getRequest r.ctx path st.cli.Token), .sessionValid st.cli.Token]) ∨
       (resp.StatusCode = 200 ∧ ∃ e, DecodeSessionInfo E resp.Body = .error e ∧
          (validation E st r).1 = (none, some (.wrap "can't decode response body: " e)) ∧
          (validation E st r).2.2 = [.getSessionInfo st.cli.Token,
            .clientDo (getRequest r.ctx path st.cli.Token)]) ∨
       (resp.StatusCode = 401 ∧
          (validation E st r).1 = (none, some .errUnauthorized) ∧
          (validation E st r).2.2 = [.getSessionInfo st.cli.Token,
            .clientDo (getRequest r.ctx path st.cli.Token)]) ∨
       (resp.StatusCode ≠ 200 ∧ resp.StatusCode ≠ 401 ∧
          ∃ e, DecodeRawMessage resp.Body = .error e ∧
          (validation E st r).1 = (none, some (.wrap
            ("can't decode body of unsuccess response with status code " ++
              fmtD resp.StatusCode ++ ": ") e)) ∧
          (validation E st r).2.2 = [.getSessionInfo st.cli.Token,
            .clientDo (getRequest r.ctx path st.cli.Token)]) ∨
       (resp.StatusCode ≠ 200 ∧ resp.StatusCode ≠ 401 ∧
          ∃ raw, DecodeRawMessage resp.Body = .ok raw ∧
          (validation E st r).1 = (none, some (.plain ("incorrect response, status " ++
            fmtD resp.StatusCode ++ ", body " ++ fmtVRawMessage raw))) ∧
          (validation E st r).2.2 = [.getSessionInfo st.cli.Token,
            .clientDo (getRequest r.ctx path st.cli.Token)])) := by
  obtain ⟨path, hp, hq, hd⟩ := h
  refine ⟨path, hp, hq, hd, ?_⟩
  unfold validation
  rcases getSessionInfo_cases E st.net r.ctx st.cli.BaseURL st.cli.Token with
    ⟨m, _, h2⟩ | ⟨p, hp2, _, m, hd2, _⟩ | ⟨p, hp2, _, resp2, hd2, hc⟩
  · exact absurd hq (h2 path hp)
  · rw [hp] at hp2; cases hp2; rw [hd] at hd2; cases hd2
  · rw [hp] at hp2; cases hp2; rw [hd] at hd2; cases hd2
    rcases hc with ⟨h1, i, h2, h3⟩ | ⟨h1, e, h2, h3⟩ | ⟨h1, h3⟩ | ⟨h0, h1, e, h2, h3⟩ |
      ⟨h0, h1, raw, h2, h3⟩
    · exact ⟨by rw [h3], Or.inl ⟨h1, i, h2, by rw [h3], by rw [h3]⟩⟩
    · exact ⟨by rw [h3], Or.inr (Or.inl ⟨h1, e, h2, by rw [h3], by rw [h3]⟩)⟩
    · exact ⟨by rw [h3], Or.inr (Or.inr (Or.inl ⟨h1, by rw [h3], by rw [h3]⟩))⟩
    · exact ⟨by rw [h3], Or.inr (Or.inr (Or.inr (Or.inl ⟨h0, h1, e, h2, by rw [h3], by rw [h3]⟩)))⟩
    · exact ⟨by rw [h3],
        Or.inr (Or.inr (Or.inr (Or.inr ⟨h0, h1, raw, h2, by rw [h3], by rw [h3]⟩)))⟩

/-- The validator returns the sentinel exactly when introspection answered 401. -/
theorem validation_sentinel_iff {σ : Type} (E : Env σ) (st : State σ) (r : Request)
    (e : GoError) (h : (validation E st r).1.2 = some e) :
    errorsIs e .errUnauthorized = true ↔
      ∃ resp, IntrospectionAnswers E st r resp ∧ resp.StatusCode = 401 := by
  constructor
  · intro hs
    unfold validation at h
    rcases getSessionInfo_cases E st.net r.ctx st.cli.BaseURL st.cli.Token with
      ⟨m, h1, _⟩ | ⟨p, _, _, m, _, h1⟩ | ⟨p, hp, hq, resp, hd, hc⟩
    · rw [h1] at h; cases h; simp [errorsIs] at hs
    · rw [h1] at h; cases h; simp [errorsIs] at hs
    · rcases hc with ⟨_, i, _, h3⟩ | ⟨_, e2, h2, h3⟩ | ⟨h1, _⟩ | ⟨_, _, e2, h2, h3⟩ |
        ⟨_, _, raw, _, h3⟩
      · rw [h3] at h; cases h
      · rw [h3] at h; cases h
        obtain ⟨m, rfl⟩ := DecodeSessionInfo_error_plain E _ _ h2
        simp [errorsIs] at hs
      · exact ⟨resp, ⟨p, hp, hq, hd⟩, h1⟩
      · rw [h3] at h; cases h
        obtain ⟨m, rfl⟩ := DecodeRawMessage_error_plain _ _ h2
        simp [errorsIs] at hs
      · rw [h3] at h; cases h; simp [errorsIs] at hs
  · rintro ⟨resp, ha, h401⟩
    obtain ⟨path, _, _, _, _, hc⟩ := validation_answers E st r resp ha
    rcases hc with ⟨h1, _⟩ | ⟨h1, _⟩ | ⟨_, h3, _⟩ | ⟨_, h1, _⟩ | ⟨_, h1, _⟩
    · omega
    · omega
    · rw [h3] at h; cases h; rfl
    · exact absurd h401 h1
    · exact absurd h401 h1

/-- The validator returns no error exactly when introspection answered 200 with a
body that decodes. -/
theorem validation_ok_iff {σ : Type} (E : Env σ) (st : State σ) (r : Request) :
    (validation E st r).1.2 = none ↔
      ∃ resp info, IntrospectionAnswers E st r resp ∧ resp.StatusCode = 200 ∧
        DecodeSessionInfo E resp.Body = .ok info := by
  constructor
  · intro h
    unfold validation at h
    rcases getSessionInfo_cases E st.net r.ctx st.cli.BaseURL st.cli.Token with
      ⟨m, h1, _⟩ | ⟨p, _, _, m, _, h1⟩ | ⟨p, hp, hq, resp, hd, hc⟩
    · rw [h1] at h; cases h
    · rw [h1] at h; cases h
    · rcases hc with ⟨h1, i, h2, _⟩ | ⟨_, e2, _, h3⟩ | ⟨_, h3⟩ | ⟨_, _, e2, _, h3⟩ |
        ⟨_, _, raw, _, h3⟩
      · exact ⟨resp, i, ⟨p, hp, hq, hd⟩, h1, h2⟩
      all_goals (rw [h3] at h; cases h)
  · rintro ⟨resp, info, ha, h200, hdec⟩
    obtain ⟨path, _, _, _, _, hc⟩ := validation_answers E st r resp ha
    rcases hc with ⟨_, i, _, h3, _⟩ | ⟨_, e, h2, _⟩ | ⟨h1, _⟩ | ⟨h1, _⟩ | ⟨h1, _⟩
    · rw [h3]
    · rw [hdec] at h2; cases h2
    · omega
    · exact absurd h200 h1
    · exact absurd h200 h1

/-- The events of a validation are its call, at most one request and at most one
normal return. -/
theorem validation_events {σ : Type} (E : Env σ) (st : State σ) (r : Request) :
    ∀ e ∈ (validation E st r).2.2, e = .getSessionInfo st.cli.Token ∨
      (∃ req, e = .clientDo req) ∨ e = .sessionValid st.cli.Token := by
  unfold validation
  rcases getSessionInfo_cases E st.net r.ctx st.cli.BaseURL st.cli.Token with
    ⟨m, h1, _⟩ | ⟨p, _, _, m, _, h1⟩ | ⟨p, hp, hq, resp, hd, hc⟩
  · rw [h1]; simp
  · rw [h1]; simp
  · rcases hc with ⟨_, i, _, h3⟩ | ⟨_, e2, _, h3⟩ | ⟨_, h3⟩ | ⟨_, _, e2, _, h3⟩ |
      ⟨_, _, raw, _, h3⟩ <;> (rw [h3]; simp)

/-- The events of a creation are its call, at most one request and at most one
normal return. -/
theorem creation_events {σ : Type} (E : Env σ) (st : State σ) (r : Request) :
    ∀ e ∈ (creation E st r).2.2, e = .createSessionKey (basicAuth st.cli) ∨
      (∃ req, e = .clientDo req) ∨ e = .sessionCreated (creation E st r).1.1 := by
  unfold creation
  rcases createSessionKey_cases E (validation E st r).2.1 r.ctx st.cli.BaseURL
      (basicAuth st.cli) with
    ⟨m, h1, _⟩ | ⟨p, _, _, m, _, h1⟩ | ⟨p, hp, hq, resp, hd, hc⟩
  · rw [h1]; simp
  · rw [h1]; simp
  · rcases hc with ⟨_, e2, _, h3⟩ | ⟨_, e2, _, h3⟩ | ⟨_, m, _, h3⟩ | ⟨_, _, h3⟩ <;>
      (rw [h3]; simp)

/-! ## The four paths through `RoundTrip` -/

/-- Releasing a mutex that was free before the call gives the client back. -/
theorem Client.unlock_free (cli : Client) (h : cli.Mutex.locked = false) :
    { cli with Mutex := ⟨false⟩ } = cli := by
  cases cli with
  | mk b u p t m => cases m; simp_all

/-- A held mutex blocks the call. -/
theorem RoundTrip_blocked {σ : Type} (E : Env σ) (st : State σ) (r : Request)
    (hheld : st.cli.Mutex.locked = true) : RoundTrip E st r = none := by
  simp [RoundTrip, State.Lock, hheld]

/-- The path of a token that validates. -/
theorem RoundTrip_valid {σ : Type} (E : Env σ) (st : State σ) (r : Request)
    (hfree : st.cli.Mutex.locked = false) (hv : (validation E st r).1.2 = none) :
    RoundTrip E st r = some
      (State.send E
        { cli := st.cli, net := (validation E st r).2.1,
          trace := st.trace ++ [Event.lock, Event.tokenRead st.cli.Token] ++
            (validation E st r).2.2 ++
            [Event.tokenRead st.cli.Token, Event.headerAdd vmwareSessionIDHeader st.cli.Token,
              Event.unlock] }
        { r with Header := r.Header.Add vmwareSessionIDHeader st.cli.Token }) := by
  unfold validation at hv ⊢
  simp [RoundTrip, State.Lock, State.Unlock, hfree, hv, Client.unlock_free]

/-- The path of a validation that fails with something else than the sentinel. -/
theorem RoundTrip_validate_failed {σ : Type} (E : Env σ) (st : State σ) (r : Request)
    (err : GoError) (hfree : st.cli.Mutex.locked = false)
    (hv : (validation E st r).1.2 = some err) (hne : errorsIs err .errUnauthorized = false) :
    RoundTrip E st r = some
      { resp := none, err := some (.wrap "can't get session info: " err), r := r,
        st := { cli := st.cli, net := (validation E st r).2.1,
                trace := st.trace ++ [Event.lock, Event.tokenRead st.cli.Token] ++
                  (validation E st r).2.2 ++ [Event.unlock] } } := by
  unfold validation at hv ⊢
  simp [RoundTrip, State.Lock, State.Unlock, hfree, hv, hne, Client.unlock_free]

/-- The path of a creation that fails. -/
theorem RoundTrip_create_failed {σ : Type} (E : Env σ) (st : State σ) (r : Request)
    (err err2 : GoError) (hfree : st.cli.Mutex.locked = false)
    (hv : (validation E st r).1.2 = some err) (hne : errorsIs err .errUnauthorized = true)
    (hc : (creation E st r).1.2 = some err2) :
    RoundTrip E st r = some
      { resp := none, err := some (.wrap "can't create session: " err2), r := r,
        st := { cli := st.cli, net := (creation E st r).2.1,
                trace := st.trace ++ [Event.lock, Event.tokenRead st.cli.Token] ++
                  (validation E st r).2.2 ++ (creation E st r).2.2 ++ [Event.unlock] } } := by
  unfold creation validation basicAuth at hc
  unfold validation at hv
  unfold creation validation basicAuth
  simp [RoundTrip, State.Lock, State.Unlock, hfree, hv, hne, hc, Client.unlock_free]

/-- The path of a creation that succeeds. -/
theorem RoundTrip_created {σ : Type} (E : Env σ) (st : State σ) (r : Request)
    (err : GoError) (hfree : st.cli.Mutex.locked = false)
    (hv : (validation E st r).1.2 = some err) (hne : errorsIs err .errUnauthorized = true)
    (hc : (creation E st r).1.2 = none) :
    RoundTrip E st r = some
      (State.send E
        { cli := { st.cli with Token := (creation E st r).1.1 },
          net := (creation E st r).2.1,
          trace := st.trace ++ [Event.lock, Event.tokenRead st.cli.Token] ++
            (validation E st r).2.2 ++ (creation E st r).2.2 ++
            [Event.logPrintln "new session created",
             Event.tokenWrite (creation E st r).1.1,
             Event.headerAdd vmwareSessionIDHeader (creation E st r).1.1,
             Event.unlock] }
        { r with Header := r.Header.Add vmwareSessionIDHeader (creation E st r).1.1 }) := by
  unfold creation validation basicAuth at hc
  unfold validation at hv
  unfold creation validation basicAuth
  simp [RoundTrip, State.Lock, State.Unlock, hfree, hv, hne, hc]
  cases hcli : st.cli with
  | mk b u p t m => cases m; simp_all

/-- With the mutex free the call returns: `RoundTrip` is total on such states. -/
theorem RoundTrip_returns {σ : Type} (E : Env σ) (st : State σ) (r : Request)
    (hfree : st.cli.Mutex.locked = false) : ∃ res, RoundTrip E st r = some res := by
  rcases hv : (validation E st r).1.2 with _ | err
  · exact ⟨_, RoundTrip_valid E st r hfree hv⟩
  · rcases hs : errorsIs err .errUnauthorized with _ | _
    · exact ⟨_, RoundTrip_validate_failed E st r err hfree hv hs⟩
    · rcases hc : (creation E st r).1.2 with _ | err2
      · exact ⟨_, RoundTrip_created E st r err hfree hv hs hc⟩
      · exact ⟨_, RoundTrip_create_failed E st r err err2 hfree hv hs hc⟩

/-- A validation does not call `createSessionKey`. -/
theorem validation_no_create {σ : Type} (E : Env σ) (st : State σ) (r : Request) (a : String) :
    Event.createSessionKey a ∉ (validation E st r).2.2 := by
  intro h
  rcases validation_events E st r _ h with h | ⟨_, h⟩ | h <;> cases h

/-- A validation does not delegate anything to the transport. -/
theorem validation_no_transport {σ : Type} (E : Env σ) (st : State σ) (r : Request)
    (req : Request) : Event.transport req ∉ (validation E st r).2.2 := by
  intro h
  rcases validation_events E st r _ h with h | ⟨_, h⟩ | h <;> cases h

/-- A creation does not delegate anything to the transport. -/
theorem creation_no_transport {σ : Type} (E : Env σ) (st : State σ) (r : Request)
    (req : Request) : Event.transport req ∉ (creation E st r).2.2 := by
  intro h
  rcases creation_events E st r _ h with h | ⟨_, h⟩ | h <;> cases h

/-- The events of a validation are all of the guarded kind. -/
theorem validation_guarded {σ : Type} (E : Env σ) (st : State σ) (r : Request) :
    ∀ e ∈ (validation E st r).2.2, e.guarded = true := by
  intro e h
  rcases validation_events E st r _ h with h | ⟨_, h⟩ | h <;> (subst h; rfl)

/-- The events of a creation are all of the guarded kind. -/
theorem creation_guarded {σ : Type} (E : Env σ) (st : State σ) (r : Request) :
    ∀ e ∈ (creation E st r).2.2, e.guarded = true := by
  intro e h
  rcases creation_events E st r _ h with h | ⟨_, h⟩ | h <;> (subst h; rfl)

/-- The events of a call whose trace is the old trace followed by `evs`. -/
theorem newEvents_eq {σ : Type} (st : State σ) (res : Result σ) (evs : List Event)
    (h : res.st.trace = st.trace ++ evs) : newEvents st res = evs := by
  simp [newEvents, h]

/-- What `RoundTrip` does when the token it holds validates. -/
theorem RoundTrip_reuses {σ : Type} (E : Env σ) (st : State σ) (r : Request)
    (resp : Response) (info : SessionInfo)
    (hfree : st.cli.Mutex.locked = false)
    (hanswer : IntrospectionAnswers E st r resp) (h200 : resp.StatusCode = 200)
    (hdec : DecodeSessionInfo E resp.Body = .ok info) :
    ∃ res, RoundTrip E st r = some res ∧
      (∀ a, Event.createSessionKey a ∉ newEvents st res) ∧
      res.st.cli.Token = st.cli.Token ∧
      res.r = { r with Header := r.Header.Add vmwareSessionIDHeader st.cli.Token } ∧
      Event.transport res.r ∈ newEvents st res ∧
      res.resp = (E.Transport (validation E st r).2.1 res.r).1.1 ∧
      res.err = (E.Transport (validation E st r).2.1 res.r).1.2.map GoError.plain := by
  have hv : (validation E st r).1.2 = none :=
    (validation_ok_iff E st r).2 ⟨resp, info, hanswer, h200, hdec⟩
  refine ⟨_, RoundTrip_valid E st r hfree hv, ?_, rfl, rfl, ?_, rfl, rfl⟩
  · intro a ha
    rw [newEvents_eq st _ ([Event.lock, Event.tokenRead st.cli.Token] ++
      (validation E st r).2.2 ++ [Event.tokenRead st.cli.Token,
        Event.headerAdd vmwareSessionIDHeader st.cli.Token, Event.unlock,
        Event.transport { r with Header := r.Header.Add vmwareSessionIDHeader st.cli.Token }])
      (by simp [State.send])] at ha
    simp [validation_no_create] at ha
  · rw [newEvents_eq st _ ([Event.lock, Event.tokenRead st.cli.Token] ++
      (validation E st r).2.2 ++ [Event.tokenRead st.cli.Token,
        Event.headerAdd vmwareSessionIDHeader st.cli.Token, Event.unlock,
        Event.transport { r with Header := r.Header.Add vmwareSessionIDHeader st.cli.Token }])
      (by simp [State.send])]
    simp [State.send]


/-- When creation answers `resp`, the creation goes by the status of `resp`. -/
theorem creation_answers {σ : Type} (E : Env σ) (st : State σ) (r : Request) (resp : Response)
    (h : CreationAnswers E st r resp) :
    ∃ path, E.JoinPath st.cli.BaseURL.String "/api/session" = .ok path ∧ E.Parse path = none ∧
      (creation E st r).2.1 =
        (E.Do (validation E st r).2.1 (postRequest r.ctx path (basicAuth st.cli))).2 ∧
      ((resp.StatusCode ≠ 201 ∧ ∃ e, DecodeRawMessage resp.Body = .error e ∧
          (creation E st r).1 = ("", some (.wrap
            ("can't decode body of unsuccess response with status code " ++
              fmtD resp.StatusCode ++ ": ") e)) ∧
          (creation E st r).2.2 = [.createSessionKey (basicAuth st.cli),
            .clientDo (postRequest r.ctx path (basicAuth st.cli))]) ∨
       (resp.StatusCode ≠ 201 ∧ ∃ raw, DecodeRawMessage resp.Body = .ok raw ∧
          (creation E st r).1 = ("", some (.plain ("incorrect response, status " ++
            fmtD resp.StatusCode ++ ", body " ++ Quote E.isPrintTable raw))) ∧
          (creation E st r).2.2 = [.createSessionKey (basicAuth st.cli),
            .clientDo (postRequest r.ctx path (basicAuth st.cli))]) ∨
       (resp.StatusCode = 201 ∧ ∃ m, resp.Body.err = some m ∧
          (creation E st r).1 = ("", some (.plain m)) ∧
          (creation E st r).2.2 = [.createSessionKey (basicAuth st.cli),
            .clientDo (postRequest r.ctx path (basicAuth st.cli))]) ∨
       (resp.StatusCode = 201 ∧ resp.Body.err = none ∧
          (creation E st r).1 = (Trim resp.Body.data "\"", none) ∧
          (creation E st r).2.2 = [.createSessionKey (basicAuth st.cli),
            .clientDo (postRequest r.ctx path (basicAuth st.cli)),
            .sessionCreated (Trim resp.Body.data "\"")])) := by
  obtain ⟨path, hp, hq, hd⟩ := h
  refine ⟨path, hp, hq, ?_⟩
  unfold creation
  rcases createSessionKey_cases E (validation E st r).2.1 r.ctx st.cli.BaseURL
      (basicAuth st.cli) with
    ⟨m, _, h2⟩ | ⟨p, hp2, _, m, hd2, _⟩ | ⟨p, hp2, _, resp2, hd2, hc⟩
  · exact absurd hq (h2 path hp)
  · rw [hp] at hp2; cases hp2; rw [hd] at hd2; cases hd2
  · rw [hp] at hp2; cases hp2; rw [hd] at hd2; cases hd2
    rcases hc with ⟨h1, e, h2, h3⟩ | ⟨h1, raw, h2, h3⟩ | ⟨h1, m, h2, h3⟩ | ⟨h1, h2, h3⟩
    · exact ⟨by rw [h3], Or.inl ⟨h1, e, h2, by rw [h3], by rw [h3]⟩⟩
    · exact ⟨by rw [h3], Or.inr (Or.inl ⟨h1, raw, h2, by rw [h3], by rw [h3]⟩)⟩
    · exact ⟨by rw [h3], Or.inr (Or.inr (Or.inl ⟨h1, m, h2, by rw [h3], by rw [h3]⟩))⟩
    · exact ⟨by rw [h3], Or.inr (Or.inr (Or.inr ⟨h1, h2, by rw [h3], by rw [h3]⟩))⟩

/-- The canonical form of the session header key. -/
theorem canonical_session_key :
    CanonicalMIMEHeaderKey vmwareSessionIDHeader = "Vmware-Api-Session-Id" := by decide

/-- The canonical form of the key `authorization`. -/
theorem canonical_authorization : CanonicalMIMEHeaderKey "authorization" = "Authorization" := by
  decide

/-- The canonical form of the key `Content-type`. -/
theorem canonical_content_type : CanonicalMIMEHeaderKey "Content-type" = "Content-Type" := by
  decide

/-- The creator's request carries the basic-authentication header. -/
theorem postRequest_authorization (ctx : Context) (path auth : String) :
    (postRequest ctx path auth).Header.Get "Authorization" = "Basic " ++ auth := by
  have h : CanonicalMIMEHeaderKey "Authorization" = "Authorization" := by decide
  simp [postRequest, Header.Get, Header.Add, Header.empty, canonical_authorization,
    canonical_content_type, h]

/-! ## `strings.Trim` with the cutset `"` -/

/-- A list that neither starts nor ends with a quote is left alone. -/
theorem trim_unquoted (l : List Char) (h1 : l.head? ≠ some '"') (h2 : l.getLast? ≠ some '"') :
    (l.dropWhile (fun c => ['"'].contains c)).rdropWhile (fun c => ['"'].contains c) = l := by
  have hd : l.dropWhile (fun c => ['"'].contains c) = l := by
    cases l with
    | nil => rfl
    | cons c cs =>
      have hc : c ≠ '"' := by simpa using h1
      simp [List.dropWhile, hc]
  rw [hd, List.rdropWhile_eq_self_iff]
  intro hl hp
  apply h2
  rw [List.getLast?_eq_getLast _ hl]
  simpa using hp

/-- A list between two quotes that neither starts nor ends with a quote is what remains. -/
theorem trim_quoted (l : List Char) (h1 : l.head? ≠ some '"') (h2 : l.getLast? ≠ some '"') :
    (('"' :: (l ++ ['"'])).dropWhile (fun c => ['"'].contains c)).rdropWhile
      (fun c => ['"'].contains c) = l := by
  cases l with
  | nil => simp [List.dropWhile, List.rdropWhile]
  | cons c cs =>
    have hc : c ≠ '"' := by simpa using h1
    have hd : ('"' :: (c :: cs ++ ['"'])).dropWhile (fun x => ['"'].contains x) =
        (c :: cs) ++ ['"'] := by
      simp [List.dropWhile, hc]
    rw [hd, List.rdropWhile_concat_pos _ _ _ (by simp)]
    rw [List.rdropWhile_eq_self_iff]
    intro hl hp
    apply h2
    rw [List.getLast?_eq_getLast _ hl]
    simpa using hp

/-- The function `Trim` on a text in quotes. -/
theorem Trim_quoted (s : String) (h1 : s.data.head? ≠ some '"')
    (h2 : s.data.getLast? ≠ some '"') : Trim ("\"" ++ s ++ "\"") "\"" = s := by
  have h := trim_quoted s.data h1 h2
  unfold Trim
  have hdata : ("\"" ++ s ++ "\"").data = '"' :: (s.data ++ ['"']) := by
    simp [String.data_append]
  have hcut : ("\"" : String).data = ['"'] := rfl
  rw [hdata, hcut, h]

/-- The function `Trim` on a text without quotes at its ends. -/
theorem Trim_unquoted (b : String) (h1 : b.data.head? ≠ some '"')
    (h2 : b.data.getLast? ≠ some '"') : Trim b "\"" = b := by
  have h := trim_unquoted b.data h1 h2
  unfold Trim
  have hcut : ("\"" : String).data = ['"'] := rfl
  rw [hcut, h]

/-- The events of a creation start with its call. -/
theorem creation_call_mem {σ : Type} (E : Env σ) (st : State σ) (r : Request) :
    Event.createSessionKey (basicAuth st.cli) ∈ (creation E st r).2.2 := by
  unfold creation
  rcases createSessionKey_cases E (validation E st r).2.1 r.ctx st.cli.BaseURL
      (basicAuth st.cli) with
    ⟨m, h1, _⟩ | ⟨p, _, _, m, _, h1⟩ | ⟨p, hp, hq, resp, hd, hc⟩
  · rw [h1]; simp
  · rw [h1]; simp
  · rcases hc with ⟨_, e2, _, h3⟩ | ⟨_, e2, _, h3⟩ | ⟨_, m, _, h3⟩ | ⟨_, _, h3⟩ <;>
      (rw [h3]; simp)

/-- A validation that returns no error did not get a 401. -/
theorem validation_ok_not_unauthorized {σ : Type} (E : Env σ) (st : State σ) (r : Request)
    (h : (validation E st r).1.2 = none) :
    ¬ ∃ resp, IntrospectionAnswers E st r resp ∧ resp.StatusCode = 401 := by
  rintro ⟨resp, ha, h401⟩
  obtain ⟨path, _, _, _, _, hc⟩ := validation_answers E st r resp ha
  rcases hc with ⟨h1, _⟩ | ⟨h1, _⟩ | ⟨_, h3, _⟩ | ⟨_, h1, _⟩ | ⟨_, h1, _⟩
  · omega
  · omega
  · rw [h3] at h; cases h
  · exact absurd h401 h1
  · exact absurd h401 h1

/-! ## Messages -/

/-- A text contains what stands in its middle. -/
theorem Contains_mid (a sub b : String) : Contains (a ++ sub ++ b) sub :=
  ⟨a.data, b.data, by simp [String.data_append]⟩

/-- A text contains what a suffix of it contains. -/
theorem Contains_append_left (p s sub : String) (h : Contains s sub) : Contains (p ++ s) sub := by
  obtain ⟨a, b, hab⟩ := h
  exact ⟨p.data ++ a, b, by simp [String.data_append, ← hab]⟩

/-- A text contains what a prefix of it contains. -/
theorem Contains_append_right (s q sub : String) (h : Contains s sub) :
    Contains (s ++ q) sub := by
  obtain ⟨a, b, hab⟩ := h
  exact ⟨a, b ++ q.data, by simp [String.data_append, ← hab]⟩

/-- The requests delegated in a trace made of two parts. -/
theorem delegated_append (l₁ l₂ : List Event) :
    delegated (l₁ ++ l₂) = delegated l₁ ++ delegated l₂ := by
  induction l₁ with
  | nil => rfl
  | cons e es ih => cases e <;> simp [delegated, ih]

/-- A trace without delegation has no delegated request. -/
theorem delegated_eq_nil (l : List Event) (h : ∀ req, Event.transport req ∉ l) :
    delegated l = [] := by
  induction l with
  | nil => rfl
  | cons e es ih =>
    have hes : ∀ req, Event.transport req ∉ es := fun req hr => h req (List.mem_cons_of_mem _ hr)
    cases e <;> simp [delegated, ih hes]
    exact h _ (List.mem_cons_self _ _)

/-- A validation delegates nothing. -/
theorem delegated_validation {σ : Type} (E : Env σ) (st : State σ) (r : Request) :
    delegated (validation E st r).2.2 = [] :=
  delegated_eq_nil _ (validation_no_transport E st r)

/-- A creation delegates nothing. -/
theorem delegated_creation {σ : Type} (E : Env σ) (st : State σ) (r : Request) :
    delegated (creation E st r).2.2 = [] :=
  delegated_eq_nil _ (creation_no_transport E st r)

/-- The values under the session key after `Header.Add`, and the other keys. -/
theorem Header.Add_session (h : Header) (token : String) :
    (h.Add vmwareSessionIDHeader token) "Vmware-Api-Session-Id" =
        h "Vmware-Api-Session-Id" ++ [token] ∧
      (∀ k, k ≠ "Vmware-Api-Session-Id" → (h.Add vmwareSessionIDHeader token) k = h k) ∧
      (h "Vmware-Api-Session-Id" = [] →
        (h.Add vmwareSessionIDHeader token).Get vmwareSessionIDHeader = token) := by
  refine ⟨by simp [Header.Add, canonical_session_key], ?_, ?_⟩
  · intro k hk; simp [Header.Add, canonical_session_key, hk]
  · intro h0; simp [Header.Get, Header.Add, canonical_session_key, h0]

/-- The events of a validation start with its call. -/
theorem validation_call_mem {σ : Type} (E : Env σ) (st : State σ) (r : Request) :
    Event.getSessionInfo st.cli.Token ∈ (validation E st r).2.2 := by
  unfold validation
  rcases getSessionInfo_cases E st.net r.ctx st.cli.BaseURL st.cli.Token with
    ⟨m, h1, _⟩ | ⟨p, _, _, m, _, h1⟩ | ⟨p, hp, hq, resp, hd, hc⟩
  · rw [h1]; simp
  · rw [h1]; simp
  · rcases hc with ⟨_, i, _, h3⟩ | ⟨_, e2, _, h3⟩ | ⟨_, h3⟩ | ⟨_, _, e2, _, h3⟩ |
      ⟨_, _, raw, _, h3⟩ <;> (rw [h3]; simp)

/-! ## Concurrent calls: the invariant -/

/-- The observer's knowledge after two traces in a row. -/
theorem Monitor.after_append (m : Monitor) (l₁ l₂ : List (Nat × Event)) :
    m.after (l₁ ++ l₂) = (m.after l₁).after l₂ := by
  simp [Monitor.after, List.foldl_append]

/-- The observer's knowledge after no event. -/
theorem Monitor.after_nil (m : Monitor) : m.after [] = m := rfl

/-- The observer's knowledge after a first event and more. -/
theorem Monitor.after_cons (m : Monitor) (x : Nat × Event) (xs : List (Nat × Event)) :
    m.after (x :: xs) = (m.observe x).after xs := rfl

/-- A trace in two parts is accepted when the first part is and the second is
from where the first leaves the observer. -/
theorem Monitor.accepts_append (m : Monitor) (l₁ l₂ : List (Nat × Event)) :
    m.accepts (l₁ ++ l₂) = (m.accepts l₁ && (m.after l₁).accepts l₂) := by
  induction l₁ generalizing m with
  | nil => simp [Monitor.accepts, Monitor.after]
  | cons x xs ih =>
    have h := ih (m.observe x)
    simp only [Monitor.after] at h
    simp [Monitor.accepts, h, Monitor.after, Bool.and_assoc]

/-- The tokens created in two traces in a row. -/
theorem createdTokens_append (l₁ l₂ : List (Nat × Event)) :
    createdTokens (l₁ ++ l₂) = createdTokens l₁ ++ createdTokens l₂ := by
  induction l₁ with
  | nil => rfl
  | cons x xs ih =>
    obtain ⟨i, e⟩ := x
    cases e <;> simp [createdTokens, ih]

/-- The events of `getSessionInfo`: the call and at most one request, followed by
the normal return exactly when no error is returned. -/
theorem getSessionInfo_shape {σ : Type} (E : Env σ) (net : σ) (ctx : Context) (baseURL : URL)
    (token : String) :
    ((getSessionInfo E net ctx baseURL token).1.2 = none ∧
      ∃ req, (getSessionInfo E net ctx baseURL token).2.2 =
        [.getSessionInfo token, .clientDo req, .sessionValid token]) ∨
    ((∃ e, (getSessionInfo E net ctx baseURL token).1.2 = some e) ∧
      ((getSessionInfo E net ctx baseURL token).2.2 = [.getSessionInfo token] ∨
        ∃ req, (getSessionInfo E net ctx baseURL token).2.2 =
          [.getSessionInfo token, .clientDo req])) := by
  rcases getSessionInfo_cases E net ctx baseURL token with
    ⟨m, h1, _⟩ | ⟨p, _, _, m, _, h1⟩ | ⟨p, hp, hq, resp, hd, hc⟩
  · right; rw [h1]; exact ⟨⟨_, rfl⟩, Or.inl rfl⟩
  · right; rw [h1]; exact ⟨⟨_, rfl⟩, Or.inr ⟨_, rfl⟩⟩
  · rcases hc with ⟨_, i, _, h3⟩ | ⟨_, e2, _, h3⟩ | ⟨_, h3⟩ | ⟨_, _, e2, _, h3⟩ |
      ⟨_, _, raw, _, h3⟩
    · left; rw [h3]; exact ⟨rfl, _, rfl⟩
    all_goals (right; rw [h3]; exact ⟨⟨_, rfl⟩, Or.inr ⟨_, rfl⟩⟩)

/-- The events of `createSessionKey`: the call and at most one request, followed
by the normal return, with the token returned, exactly when no error is returned. -/
theorem createSessionKey_shape {σ : Type} (E : Env σ) (net : σ) (ctx : Context)
    (baseURL : URL) (auth : String) :
    ((createSessionKey E net ctx baseURL auth).1.2 = none ∧
      ∃ req, (createSessionKey E net ctx baseURL auth).2.2 =
        [.createSessionKey auth, .clientDo req,
          .sessionCreated (createSessionKey E net ctx baseURL auth).1.1]) ∨
    ((∃ e, (createSessionKey E net ctx baseURL auth).1.2 = some e) ∧
      ((createSessionKey E net ctx baseURL auth).2.2 = [.createSessionKey auth] ∨
        ∃ req, (createSessionKey E net ctx baseURL auth).2.2 =
          [.createSessionKey auth, .clientDo req])) := by
  rcases createSessionKey_cases E net ctx baseURL auth with
    ⟨m, h1, _⟩ | ⟨p, _, _, m, _, h1⟩ | ⟨p, hp, hq, resp, hd, hc⟩
  · right; rw [h1]; exact ⟨⟨_, rfl⟩, Or.inl rfl⟩
  · right; rw [h1]; exact ⟨⟨_, rfl⟩, Or.inr ⟨_, rfl⟩⟩
  · rcases hc with ⟨_, e2, _, h3⟩ | ⟨_, e2, _, h3⟩ | ⟨_, m, _, h3⟩ | ⟨_, _, h3⟩
    · right; rw [h3]; exact ⟨⟨_, rfl⟩, Or.inr ⟨_, rfl⟩⟩
    · right; rw [h3]; exact ⟨⟨_, rfl⟩, Or.inr ⟨_, rfl⟩⟩
    · right; rw [h3]; exact ⟨⟨_, rfl⟩, Or.inr ⟨_, rfl⟩⟩
    · left; rw [h3]; exact ⟨rfl, _, rfl⟩

/-- Before any call has started every call is at its entry. -/
theorem System.init_calls {σ : Type} (cli : Client) (net : σ) (rs : List Request) (i : Nat)
    (c : Call) (h : (System.init cli net rs).calls i = some c) : c.pc = .entry := by
  simp only [System.init, Option.map_eq_some'] at h
  obtain ⟨a, _, rfl⟩ := h
  rfl

/-- The invariant holds before any call has started. -/
theorem Inv.init {σ : Type} (cli : Client) (net : σ) (rs : List Request)
    (hfree : cli.Mutex.locked = false) : Inv cli (System.init cli net rs) := by
  refine ⟨rfl, rfl, by simpa [System.init, Monitor.after] using hfree, ?_, ?_, ?_, Or.inl rfl⟩
  · intro i
    constructor
    · intro h; cases h
    · rintro ⟨c, hc, hh⟩
      rw [System.init_calls cli net rs i c hc] at hh
      cases hh
  · intro i c res hc hp
    rw [System.init_calls cli net rs i c hc] at hp
    cases hp
  · intro i c res hc hp
    rw [System.init_calls cli net rs i c hc] at hp
    cases hp

/-- The invariant after a call acquired the mutex. -/
theorem Inv.step_entry {σ : Type} {cli0 : Client} {s : System σ} (inv : Inv cli0 s) (i : Nat)
    (c : Call) (hfree : s.cli.Mutex.locked = false) :
    Inv cli0 { s with
      cli := { s.cli with Mutex := ⟨true⟩ }, trace := s.trace ++ [(i, Event.lock)],
      calls := s.move i { c with pc := .locked } } := by
  obtain ⟨acc, tok, mutex, holds, vouchV, vouchC, origin⟩ := inv
  generalize hm : Monitor.after ⟨none, cli0.Token, none⟩ s.trace = m at *
  obtain ⟨holder, token, vouched⟩ := m
  have hnone : holder = none := by
    rw [hfree] at mutex
    cases holder with
    | none => rfl
    | some j => simp at mutex
  subst hnone
  have nobody : ∀ j c, s.calls j = some c → c.pc.holds = false := by
    intro j c hc
    cases hh : c.pc.holds with
    | false => rfl
    | true => have := (holds j).2 ⟨c, hc, hh⟩; simp at this
  refine ⟨?_, ?_, ?_, ?_, ?_, ?_, ?_⟩
  · simp [Monitor.accepts_append, acc, hm, Monitor.accepts, Monitor.allows]
  · simpa [Monitor.after_append, hm, Monitor.after_cons, Monitor.after_nil,
      Monitor.observe] using tok
  · simp [Monitor.after_append, hm, Monitor.after_cons, Monitor.after_nil, Monitor.observe]
  · intro j
    simp only [Monitor.after_append, hm, Monitor.after_cons, Monitor.after_nil,
      Monitor.observe, System.move]
    by_cases hj : j = i
    · subst hj; simp [Pc.holds]
    · simp only [hj, if_false]
      constructor
      · intro h; simp at h; exact absurd h.symm hj
      · rintro ⟨c2, hc2, hh⟩
        rw [nobody j c2 hc2] at hh; cases hh
  · intro j c2 res hc2 hp
    simp only [System.move] at hc2
    by_cases hj : j = i
    · simp [hj] at hc2; subst hc2; cases hp
    · simp only [hj, if_false] at hc2
      have := nobody j c2 hc2; rw [hp] at this; cases this
  · intro j c2 res hc2 hp
    simp only [System.move] at hc2
    by_cases hj : j = i
    · simp [hj] at hc2; subst hc2; cases hp
    · simp only [hj, if_false] at hc2
      have := nobody j c2 hc2; rw [hp] at this; cases this
  · simpa [createdTokens_append, createdTokens] using origin


/-- The invariant after a step of the call that holds the mutex, from what the
step adds to the trace and where it leaves the observer. -/
theorem Inv.holder_step {σ : Type} {cli0 : Client} {s s1 : System σ} (inv : Inv cli0 s)
    (i : Nat) (c c1 : Call) (new : List (Nat × Event))
    (hc : s.calls i = some c) (hh : c.pc.holds = true)
    (htrace : s1.trace = s.trace ++ new) (hcalls : s1.calls = s.move i c1)
    (hacc : (Monitor.after ⟨none, cli0.Token, none⟩ s.trace).accepts new = true)
    (htok : ((Monitor.after ⟨none, cli0.Token, none⟩ s.trace).after new).token = s1.cli.Token)
    (hmutex : s1.cli.Mutex.locked = c1.pc.holds)
    (hholder : ((Monitor.after ⟨none, cli0.Token, none⟩ s.trace).after new).holder =
      if c1.pc.holds then some i else none)
    (hV : ∀ res, c1.pc = .validated res → res.2 = none →
      ((Monitor.after ⟨none, cli0.Token, none⟩ s.trace).after new).vouched = some s1.cli.Token)
    (hC : ∀ res, c1.pc = .created res → res.2 = none →
      ((Monitor.after ⟨none, cli0.Token, none⟩ s.trace).after new).vouched = some res.1 ∧
        res.1 ∈ createdTokens s1.trace)
    (horigin : s1.cli.Token = cli0.Token ∨ s1.cli.Token ∈ createdTokens s1.trace) :
    Inv cli0 s1 := by
  obtain ⟨acc, tok, mutex, holds, vouchV, vouchC, origin⟩ := inv
  have hi : (Monitor.after ⟨none, cli0.Token, none⟩ s.trace).holder = some i :=
    (holds i).2 ⟨c, hc, hh⟩
  have others : ∀ j c2, j ≠ i → s.calls j = some c2 → c2.pc.holds = false := by
    intro j c2 hj hc2
    cases hh2 : c2.pc.holds with
    | false => rfl
    | true =>
      have := (holds j).2 ⟨c2, hc2, hh2⟩
      rw [hi] at this
      exact absurd (Option.some.inj this).symm hj
  refine ⟨?_, ?_, ?_, ?_, ?_, ?_, horigin⟩
  · rw [htrace, Monitor.accepts_append, acc, hacc]; rfl
  · rw [htrace, Monitor.after_append]; exact htok
  · rw [htrace, Monitor.after_append, hholder, hmutex]
    cases c1.pc.holds <;> rfl
  · intro j
    rw [htrace, Monitor.after_append, hholder, hcalls]
    simp only [System.move]
    by_cases hj : j = i
    · subst hj
      cases hh1 : c1.pc.holds <;> simp [hh1]
    · simp only [hj, if_false]
      constructor
      · intro h
        cases hh1 : c1.pc.holds <;> simp [hh1] at h
        exact absurd h.symm hj
      · rintro ⟨c2, hc2, hh2⟩
        rw [others j c2 hj hc2] at hh2; cases hh2
  · intro j c2 res hc2 hp hr
    rw [hcalls] at hc2
    simp only [System.move] at hc2
    rw [htrace, Monitor.after_append]
    by_cases hj : j = i
    · simp only [hj, if_true, Option.some.injEq] at hc2
      subst hc2
      exact hV res hp hr
    · simp only [hj, if_false] at hc2
      have := others j c2 hj hc2
      rw [hp] at this; cases this
  · intro j c2 res hc2 hp hr
    rw [hcalls] at hc2
    simp only [System.move] at hc2
    by_cases hj : j = i
    · simp only [hj, if_true, Option.some.injEq] at hc2
      subst hc2
      have := hC res hp hr
      rw [htrace] at this ⊢
      rw [Monitor.after_append]
      exact this
    · simp only [hj, if_false] at hc2
      have := others j c2 hj hc2
      rw [hp] at this; cases this


/-- What the observer knows while call `i` holds the mutex. -/
theorem Inv.holder_view {σ : Type} {cli0 : Client} {s : System σ} (inv : Inv cli0 s)
    (i : Nat) (c : Call) (hc : s.calls i = some c) (hh : c.pc.holds = true) :
    s.cli.Mutex.locked = true ∧
    ∃ vo, Monitor.after ⟨none, cli0.Token, none⟩ s.trace = ⟨some i, s.cli.Token, vo⟩ := by
  have hhold := (inv.holds i).2 ⟨c, hc, hh⟩
  have htok := inv.tok
  have hmutex := inv.mutex
  cases hm : Monitor.after ⟨none, cli0.Token, none⟩ s.trace with
  | mk ho tk vo =>
    rw [hm] at hhold htok hmutex
    simp only at hhold htok
    subst hhold htok
    exact ⟨by simpa using hmutex, vo, rfl⟩

/-- The invariant after the validator's exchange. -/
theorem Inv.step_locked {σ : Type} {cli0 : Client} {s : System σ} (E : Env σ)
    (inv : Inv cli0 s) (i : Nat) (c : Call) (hc : s.calls i = some c) (hpc : c.pc = .locked) :
    Inv cli0 { s with
      net := (getSessionInfo E s.net c.r.ctx s.cli.BaseURL s.cli.Token).2.1,
      trace := s.trace ++ (i, Event.tokenRead s.cli.Token) ::
        (getSessionInfo E s.net c.r.ctx s.cli.BaseURL s.cli.Token).2.2.map (Prod.mk i),
      calls := s.move i { c with
        pc := .validated (getSessionInfo E s.net c.r.ctx s.cli.BaseURL s.cli.Token).1 } } := by
  have hh : c.pc.holds = true := by rw [hpc]; rfl
  obtain ⟨hlocked, vo, hm⟩ := inv.holder_view i c hc hh
  refine inv.holder_step i c _ _ hc hh rfl rfl ?_ ?_ ?_ ?_ ?_ ?_ ?_
  · rw [hm]
    rcases getSessionInfo_shape E s.net c.r.ctx s.cli.BaseURL s.cli.Token with
      ⟨_, req, h2⟩ | ⟨_, h2 | ⟨req, h2⟩⟩ <;>
      simp [h2, Monitor.accepts, Monitor.allows, Monitor.observe]
  · rw [hm]
    rcases getSessionInfo_shape E s.net c.r.ctx s.cli.BaseURL s.cli.Token with
      ⟨_, req, h2⟩ | ⟨_, h2 | ⟨req, h2⟩⟩ <;>
      simp [h2, Monitor.after_cons, Monitor.after_nil, Monitor.observe]
  · simpa [Pc.holds] using hlocked
  · rw [hm]
    rcases getSessionInfo_shape E s.net c.r.ctx s.cli.BaseURL s.cli.Token with
      ⟨_, req, h2⟩ | ⟨_, h2 | ⟨req, h2⟩⟩ <;>
      simp [h2, Monitor.after_cons, Monitor.after_nil, Monitor.observe, Pc.holds]
  · intro res hres hnone
    cases hres
    rw [hm]
    rcases getSessionInfo_shape E s.net c.r.ctx s.cli.BaseURL s.cli.Token with
      ⟨_, req, h2⟩ | ⟨⟨e, he⟩, _⟩
    · simp [h2, Monitor.after_cons, Monitor.after_nil, Monitor.observe]
    · rw [he] at hnone; cases hnone
  · intro res hres; cases hres
  · rcases inv.origin with h | h
    · exact Or.inl h
    · exact Or.inr (by simp [createdTokens_append, h])

/-- The invariant after a release of the mutex that leaves the token alone. -/
theorem Inv.step_release {σ : Type} {cli0 : Client} {s : System σ}
    (inv : Inv cli0 s) (i : Nat) (c c1 : Call) (new : List (Nat × Event))
    (hc : s.calls i = some c) (hh : c.pc.holds = true) (hh1 : c1.pc.holds = false)
    (hok : ∀ vo, Monitor.after ⟨none, cli0.Token, none⟩ s.trace = ⟨some i, s.cli.Token, vo⟩ →
      (⟨some i, s.cli.Token, vo⟩ : Monitor).accepts new = true ∧
      ((⟨some i, s.cli.Token, vo⟩ : Monitor).after new).holder = none ∧
      ((⟨some i, s.cli.Token, vo⟩ : Monitor).after new).token = s.cli.Token) :
    Inv cli0 { s with
      cli := { s.cli with Mutex := ⟨false⟩ }, trace := s.trace ++ new,
      calls := s.move i c1 } := by
  obtain ⟨_, vo, hm⟩ := inv.holder_view i c hc hh
  obtain ⟨h1, h2, h3⟩ := hok vo hm
  refine inv.holder_step i c c1 new hc hh rfl rfl ?_ ?_ ?_ ?_ ?_ ?_ ?_
  · rw [hm]; exact h1
  · rw [hm]; exact h3
  · simp [hh1]
  · rw [hm, hh1]; simpa using h2
  · intro res hres; rw [hres] at hh1; cases hh1
  · intro res hres; rw [hres] at hh1; cases hh1
  · rcases inv.origin with h | h
    · exact Or.inl h
    · exact Or.inr (by simp [createdTokens_append, h])


/-- The invariant after the creator's exchange. -/
theorem Inv.step_create {σ : Type} {cli0 : Client} {s : System σ} (E : Env σ)
    (inv : Inv cli0 s) (i : Nat) (c : Call) (auth : String) (hc : s.calls i = some c)
    (hh : c.pc.holds = true) :
    Inv cli0 { s with
      net := (createSessionKey E s.net c.r.ctx s.cli.BaseURL auth).2.1,
      trace := s.trace ++
        (createSessionKey E s.net c.r.ctx s.cli.BaseURL auth).2.2.map (Prod.mk i),
      calls := s.move i { c with
        pc := .created (createSessionKey E s.net c.r.ctx s.cli.BaseURL auth).1 } } := by
  obtain ⟨hlocked, vo, hm⟩ := inv.holder_view i c hc hh
  refine inv.holder_step i c _ _ hc hh rfl rfl ?_ ?_ ?_ ?_ ?_ ?_ ?_
  · rw [hm]
    rcases createSessionKey_shape E s.net c.r.ctx s.cli.BaseURL auth with
      ⟨_, req, h2⟩ | ⟨_, h2 | ⟨req, h2⟩⟩ <;>
      simp [h2, Monitor.accepts, Monitor.allows, Monitor.observe]
  · rw [hm]
    rcases createSessionKey_shape E s.net c.r.ctx s.cli.BaseURL auth with
      ⟨_, req, h2⟩ | ⟨_, h2 | ⟨req, h2⟩⟩ <;>
      simp [h2, Monitor.after_cons, Monitor.after_nil, Monitor.observe]
  · simpa [Pc.holds] using hlocked
  · rw [hm]
    rcases createSessionKey_shape E s.net c.r.ctx s.cli.BaseURL auth with
      ⟨_, req, h2⟩ | ⟨_, h2 | ⟨req, h2⟩⟩ <;>
      simp [h2, Monitor.after_cons, Monitor.after_nil, Monitor.observe, Pc.holds]
  · intro res hres; cases hres
  · intro res hres hnone
    cases hres
    rw [hm]
    rcases createSessionKey_shape E s.net c.r.ctx s.cli.BaseURL auth with
      ⟨_, req, h2⟩ | ⟨⟨e, he⟩, _⟩
    · simp [h2, Monitor.after_cons, Monitor.after_nil, Monitor.observe, createdTokens_append,
        createdTokens]
    · rw [he] at hnone; cases hnone
  · rcases inv.origin with h | h
    · exact Or.inl h
    · exact Or.inr (by simp [createdTokens_append, h])

/-- The invariant after a created token is stored and attached and the mutex
released. -/
theorem Inv.step_store {σ : Type} {cli0 : Client} {s : System σ}
    (inv : Inv cli0 s) (i : Nat) (c c1 : Call) (res : String × Option GoError)
    (hc : s.calls i = some c) (hpc : c.pc = .created res) (hnone : res.2 = none)
    (hh1 : c1.pc.holds = false) :
    Inv cli0 { s with
      cli := { s.cli with Token := res.1, Mutex := ⟨false⟩ },
      trace := s.trace ++ [(i, Event.logPrintln "new session created"),
        (i, Event.tokenWrite res.1), (i, Event.headerAdd vmwareSessionIDHeader res.1),
        (i, Event.unlock)],
      calls := s.move i c1 } := by
  have hh : c.pc.holds = true := by rw [hpc]; rfl
  obtain ⟨_, vo, hm⟩ := inv.holder_view i c hc hh
  obtain ⟨hvo, hmem⟩ := inv.vouchC i c res hc hpc hnone
  rw [hm] at hvo
  simp only at hvo
  subst hvo
  refine inv.holder_step i c c1 _ hc hh rfl rfl ?_ ?_ ?_ ?_ ?_ ?_ ?_
  · rw [hm]; simp [Monitor.accepts, Monitor.allows, Monitor.observe]
  · rw [hm]; simp [Monitor.after_cons, Monitor.after_nil, Monitor.observe]
  · simp [hh1]
  · rw [hm, hh1]; simp [Monitor.after_cons, Monitor.after_nil, Monitor.observe]
  · intro res2 hres; rw [hres] at hh1; cases hh1
  · intro res2 hres; rw [hres] at hh1; cases hh1
  · exact Or.inr (by simp [createdTokens_append, hmem])

/-- The invariant after a delegation to the transport. -/
theorem Inv.step_send {σ : Type} {cli0 : Client} {s : System σ}
    (inv : Inv cli0 s) (i : Nat) (c c1 : Call) (net1 : σ) (req : Request)
    (hc : s.calls i = some c) (hpc : c.pc = .unlocked) (hh1 : c1.pc.holds = false) :
    Inv cli0 { s with
      net := net1, trace := s.trace ++ [(i, Event.transport req)], calls := s.move i c1 } := by
  obtain ⟨acc, tok, mutex, holds, vouchV, vouchC, origin⟩ := inv
  have hni : (Monitor.after ⟨none, cli0.Token, none⟩ s.trace).holder ≠ some i := by
    intro h
    obtain ⟨c2, hc2, hh2⟩ := (holds i).1 h
    rw [hc] at hc2; cases hc2
    rw [hpc] at hh2; cases hh2
  have hafter : Monitor.after ⟨none, cli0.Token, none⟩ (s.trace ++ [(i, Event.transport req)]) =
      Monitor.after ⟨none, cli0.Token, none⟩ s.trace := by
    simp [Monitor.after_append, Monitor.after_cons, Monitor.after_nil, Monitor.observe]
  refine ⟨?_, ?_, ?_, ?_, ?_, ?_, ?_⟩
  · simp only [Monitor.accepts_append, acc, Bool.true_and, Monitor.accepts, Monitor.allows,
      Bool.and_true]
    simpa using hni
  · simp only [hafter]; exact tok
  · simp only [hafter]; exact mutex
  · intro j
    simp only [hafter, System.move]
    by_cases hj : j = i
    · subst hj
      simp only [if_true]
      constructor
      · intro h; exact absurd h hni
      · rintro ⟨c2, hc2, hh2⟩
        cases hc2
        rw [hh1] at hh2; cases hh2
    · simp only [hj, if_false]; exact holds j
  · intro j c2 res hc2 hp hr
    simp only [hafter]
    simp only [System.move] at hc2
    by_cases hj : j = i
    · simp only [hj, if_true, Option.some.injEq] at hc2
      subst hc2
      rw [hp] at hh1; cases hh1
    · simp only [hj, if_false] at hc2
      exact vouchV j c2 res hc2 hp hr
  · intro j c2 res hc2 hp hr
    simp only [hafter]
    simp only [System.move] at hc2
    by_cases hj : j = i
    · simp only [hj, if_true, Option.some.injEq] at hc2
      subst hc2
      rw [hp] at hh1; cases hh1
    · simp only [hj, if_false] at hc2
      obtain ⟨h1, h2⟩ := vouchC j c2 res hc2 hp hr
      exact ⟨h1, by simp [createdTokens_append, h2]⟩
  · rcases origin with h | h
    · exact Or.inl h
    · exact Or.inr (by simp [createdTokens_append, h])

/-- Every step keeps the invariant. -/
theorem Inv.step {σ : Type} {cli0 : Client} {s s1 : System σ} (E : Env σ) (inv : Inv cli0 s)
    (i : Nat) (h : s.step E i = some s1) : Inv cli0 s1 := by
  unfold System.step at h
  cases hc : s.calls i with
  | none => simp [hc] at h
  | some c =>
    simp only [hc] at h
    cases hpc : c.pc with
    | entry =>
      simp only [hpc] at h
      cases hl : s.cli.Mutex.locked with
      | true => simp [hl] at h
      | false =>
        simp only [hl, Bool.false_eq_true, if_false, Option.some.injEq] at h
        subst h
        exact inv.step_entry i c hl
    | locked =>
      simp only [hpc, Option.some.injEq] at h
      subst h
      exact inv.step_locked E i c hc hpc
    | validated res =>
      have hh : c.pc.holds = true := by rw [hpc]; rfl
      simp only [hpc] at h
      cases hr : res.2 with
      | some err =>
        simp only [hr] at h
        cases hs : errorsIs err .errUnauthorized with
        | true =>
          simp only [hs, not_true_eq_false, if_false, Option.some.injEq] at h
          subst h
          exact inv.step_create E i c _ hc hh
        | false =>
          simp only [hs, Bool.false_eq_true, not_false_eq_true, if_true] at h
          cases hl : s.cli.Mutex.locked with
          | true =>
            simp only [hl, if_true, Option.some.injEq] at h
            subst h
            refine inv.step_release i c _ [(i, Event.unlock)] hc hh rfl ?_
            intro vo _
            simp [Monitor.accepts, Monitor.allows, Monitor.after_cons, Monitor.after_nil,
              Monitor.observe]
          | false => simp [hl] at h
      | none =>
        simp only [hr] at h
        cases hl : s.cli.Mutex.locked with
        | true =>
          simp only [hl, if_true, Option.some.injEq] at h
          subst h
          refine inv.step_release i c _ _ hc hh rfl ?_
          intro vo hm
          have hv := inv.vouchV i c res hc hpc hr
          rw [hm] at hv
          simp only at hv
          subst hv
          simp [Monitor.accepts, Monitor.allows, Monitor.after_cons, Monitor.after_nil,
            Monitor.observe]
        | false => simp [hl] at h
    | created res =>
      have hh : c.pc.holds = true := by rw [hpc]; rfl
      simp only [hpc] at h
      cases hr : res.2 with
      | some err =>
        simp only [hr] at h
        cases hl : s.cli.Mutex.locked with
        | true =>
          simp only [hl, if_true, Option.some.injEq] at h
          subst h
          refine inv.step_release i c _ [(i, Event.unlock)] hc hh rfl ?_
          intro vo _
          simp [Monitor.accepts, Monitor.allows, Monitor.after_cons, Monitor.after_nil,
            Monitor.observe]
        | false => simp [hl] at h
      | none =>
        simp only [hr] at h
        cases hl : s.cli.Mutex.locked with
        | true =>
          simp only [hl, if_true, Option.some.injEq] at h
          subst h
          exact inv.step_store i c _ res hc hpc hr rfl
        | false => simp [hl] at h
    | unlocked =>
      simp only [hpc, Option.some.injEq] at h
      subst h
      exact inv.step_send i c _ _ _ hc hpc rfl
    | returned resp err =>
      simp [hpc] at h

/-- Every schedule keeps the invariant. -/
theorem Inv.exec {σ : Type} {cli0 : Client} (E : Env σ) (sched : List Nat) :
    ∀ {s s1 : System σ}, Inv cli0 s → s.exec E sched = some s1 → Inv cli0 s1 := by
  induction sched with
  | nil => intro s s1 inv h; simp only [System.exec, Option.some.injEq] at h; subst h; exact inv
  | cons i rest ih =>
    intro s s1 inv h
    simp only [System.exec] at h
    cases hs : s.step E i with
    | none => simp [hs] at h
    | some s2 =>
      simp only [hs] at h
      exact ih (inv.step E i hs) h


/-- A call that runs alone goes through the steps of the concurrent model exactly
as `RoundTrip` does: same client, same network, same events, same request, same
results. -/
theorem RoundTrip_as_steps {σ : Type} (E : Env σ) (st : State σ) (r : Request)
    (res : Result σ) (h : RoundTrip E st r = some res) :
    ∃ k, k ≤ 5 ∧
      ((System.init st.cli st.net [r]).exec E (List.replicate k 0)).map
          (fun s => (s.cli, s.net, s.trace, (s.calls 0).map (fun c => (c.r, c.pc)))) =
        some (res.st.cli, res.st.net, (newEvents st res).map (Prod.mk 0),
          some (res.r, Pc.returned res.resp res.err)) := by
  have hfree : st.cli.Mutex.locked = false := by
    cases hl : st.cli.Mutex.locked with
    | false => rfl
    | true => rw [RoundTrip_blocked E st r hl] at h; cases h
  obtain ⟨o, hv⟩ : ∃ o, (validation E st r).1.2 = o := ⟨_, rfl⟩
  rcases o with _ | err
  · have hrt := RoundTrip_valid E st r hfree hv
    rw [hrt] at h; cases h
    refine ⟨4, by decide, ?_⟩
    unfold validation at hv
    simp [List.replicate, System.exec, System.step, System.init, System.move, hfree, hv,
      State.send, newEvents, validation, Client.unlock_free]
  · rcases hs : errorsIs err .errUnauthorized with _ | _
    · have hrt := RoundTrip_validate_failed E st r err hfree hv hs
      rw [hrt] at h; cases h
      refine ⟨3, by decide, ?_⟩
      unfold validation at hv
      simp [List.replicate, System.exec, System.step, System.init, System.move, hfree, hv,
        hs, newEvents, validation, Client.unlock_free]
    · obtain ⟨o2, hc⟩ : ∃ o, (creation E st r).1.2 = o := ⟨_, rfl⟩
      rcases o2 with _ | err2
      · have hrt := RoundTrip_created E st r err hfree hv hs hc
        rw [hrt] at h; cases h
        refine ⟨5, by decide, ?_⟩
        unfold creation validation basicAuth at hc
        unfold validation at hv
        simp [List.replicate, System.exec, System.step, System.init, System.move, hfree, hv,
          hs, hc, State.send, newEvents, validation, creation, basicAuth]
        cases hm : st.cli.Mutex with
        | mk l => rw [hm] at hfree; simp only at hfree; rw [hfree]
      · have hrt := RoundTrip_create_failed E st r err err2 hfree hv hs hc
        rw [hrt] at h; cases h
        refine ⟨4, by decide, ?_⟩
        unfold creation validation basicAuth at hc
        unfold validation at hv
        simp [List.replicate, System.exec, System.step, System.init, System.move, hfree, hv,
          hs, hc, newEvents, validation, creation, basicAuth, Client.unlock_free]


/-! ## Concurrent calls: the token stored is the last one created -/

set_option maxRecDepth 100000

/-- C1. When introspection of the current token answers 200 with a body that
decodes as a `SessionInfo`, `RoundTrip` returns, makes no call of
`createSessionKey`, leaves `Client.Token` as it was, adds exactly that token to the
request under `vmware-api-session-id`, hands that request to the transport and
returns what the transport returns for it. -/
theorem C1_valid_token_is_reused {σ : Type} (E : Env σ) (st : State σ) (r : Request)
    (resp : Response) (info : SessionInfo)
    (hfree : st.cli.Mutex.locked = false)
    (hanswer : IntrospectionAnswers E st r resp) (h200 : resp.StatusCode = 200)
    (hdec : DecodeSessionInfo E resp.Body = .ok info) :
    ∃ res, RoundTrip E st r = some res ∧
      (∀ a, Event.createSessionKey a ∉ newEvents st res) ∧
      res.st.cli.Token = st.cli.Token ∧
      res.r = { r with Header := r.Header.Add vmwareSessionIDHeader st.cli.Token } ∧
      Event.transport res.r ∈ newEvents st res ∧
      res.resp = (E.Transport (validation E st r).2.1 res.r).1.1 ∧
      res.err = (E.Transport (validation E st r).2.1 res.r).1.2.map GoError.plain := by
  have hv : (validation E st r).1.2 = none :=
    (validation_ok_iff E st r).2 ⟨resp, info, hanswer, h200, hdec⟩
  refine ⟨_, RoundTrip_valid E st r hfree hv, ?_, rfl, rfl, ?_, rfl, rfl⟩
  · intro a ha
    rw [newEvents_eq st _ ([Event.lock, Event.tokenRead st.cli.Token] ++
      (validation E st r).2.2 ++ [Event.tokenRead st.cli.Token,
        Event.headerAdd vmwareSessionIDHeader st.cli.Token, Event.unlock,
        Event.transport { r with Header := r.Header.Add vmwareSessionIDHeader st.cli.Token }])
      (by simp [State.send])] at ha
    simp [validation_no_create] at ha
  · rw [newEvents_eq st _ ([Event.lock, Event.tokenRead st.cli.Token] ++
      (validation E st r).2.2 ++ [Event.tokenRead st.cli.Token,
        Event.headerAdd vmwareSessionIDHeader st.cli.Token, Event.unlock,
        Event.transport { r with Header := r.Header.Add vmwareSessionIDHeader st.cli.Token }])
      (by simp [State.send])]
    simp [State.send]

/-- C1 on a server where the token `abc123` is live. -/
theorem C1_valid_token_is_reused_witness :
    ∃ res, RoundTrip liveServer (sampleState "abc123") sampleRequest = some res ∧
      (∀ a, Event.createSessionKey a ∉ newEvents (sampleState "abc123") res) ∧
      res.st.cli.Token = "abc123" ∧
      res.r = { sampleRequest with
        Header := sampleRequest.Header.Add vmwareSessionIDHeader "abc123" } ∧
      Event.transport res.r ∈ newEvents (sampleState "abc123") res ∧
      res.resp = (liveServer.Transport
        (validation liveServer (sampleState "abc123") sampleRequest).2.1 res.r).1.1 ∧
      res.err = (liveServer.Transport
        (validation liveServer (sampleState "abc123") sampleRequest).2.1 res.r).1.2.map
          GoError.plain :=
  C1_valid_token_is_reused liveServer (sampleState "abc123") sampleRequest
    ⟨200, ⟨sampleSession, none⟩⟩ ⟨"root", ⟨1704067200, 0⟩⟩ rfl
    ⟨"https://vc.example/api/session", rfl, rfl, rfl⟩ rfl rfl

/-- C2. When introspection answers 401 and creation answers 201 with body `b`,
whatever the token held (empty or not), `RoundTrip` returns after exactly one call
of `createSessionKey`, made with `base64(username + ":" + password)` and sending a
request whose `Authorization` header is `Basic` followed by that value; it stores
the token derived from `b` (`b` without its surrounding quotes) in `Client.Token`
and adds that same token to the request it delegates. A following `RoundTrip` from
the resulting state whose introspection answers 200 adds the stored token again
and makes no creation call. -/
theorem C2_unauthorized_creates_one_session {σ : Type} (E : Env σ) (st : State σ)
    (r : Request) (vresp : Response) (b : String)
    (hfree : st.cli.Mutex.locked = false)
    (hanswer : IntrospectionAnswers E st r vresp) (h401 : vresp.StatusCode = 401)
    (hcreate : CreationAnswers E st r ⟨201, ⟨b, none⟩⟩) :
    ∃ res, RoundTrip E st r = some res ∧
      (newEvents st res).filter Event.isCreate =
        [Event.createSessionKey (EncodeToString (st.cli.username ++ ":" ++ st.cli.password))] ∧
      (∃ req, Event.clientDo req ∈ newEvents st res ∧ req.Method = MethodPost ∧
        req.Header.Get "Authorization" =
          "Basic " ++ EncodeToString (st.cli.username ++ ":" ++ st.cli.password)) ∧
      res.st.cli = { st.cli with Token := Trim b "\"" } ∧
      res.r = { r with Header := r.Header.Add vmwareSessionIDHeader (Trim b "\"") } ∧
      Event.transport res.r ∈ newEvents st res ∧
      ∀ (r2 : Request) (resp2 : Response) (info2 : SessionInfo),
        IntrospectionAnswers E res.st r2 resp2 → resp2.StatusCode = 200 →
        DecodeSessionInfo E resp2.Body = .ok info2 →
        ∃ res2, RoundTrip E res.st r2 = some res2 ∧
          (∀ a, Event.createSessionKey a ∉ newEvents res.st res2) ∧
          res2.st.cli.Token = Trim b "\"" ∧
          res2.r = { r2 with Header := r2.Header.Add vmwareSessionIDHeader (Trim b "\"") } ∧
          Event.transport res2.r ∈ newEvents res.st res2 := by
  obtain ⟨path, _, _, _, _, hv⟩ := validation_answers E st r vresp hanswer
  have hv1 : (validation E st r).1 = (none, some .errUnauthorized) ∧
      (validation E st r).2.2 = [.getSessionInfo st.cli.Token,
        .clientDo (getRequest r.ctx path st.cli.Token)] := by
    rcases hv with ⟨h, _⟩ | ⟨h, _⟩ | ⟨_, h⟩ | ⟨_, h, _⟩ | ⟨_, h, _⟩
    · omega
    · omega
    · exact h
    · exact absurd h401 h
    · exact absurd h401 h
  obtain ⟨cpath, _, _, _, hc⟩ := creation_answers E st r _ hcreate
  have hc1 : (creation E st r).1 = (Trim b "\"", none) ∧
      (creation E st r).2.2 = [.createSessionKey (basicAuth st.cli),
        .clientDo (postRequest r.ctx cpath (basicAuth st.cli)),
        .sessionCreated (Trim b "\"")] := by
    rcases hc with ⟨h, _⟩ | ⟨h, _⟩ | ⟨_, m, h, _⟩ | ⟨_, _, h⟩
    · exact absurd rfl h
    · exact absurd rfl h
    · cases h
    · exact h
  have hrt := RoundTrip_created E st r .errUnauthorized hfree (by rw [hv1.1])
    errorsIs_sentinel (by rw [hc1.1])
  rw [hc1.1, hv1.2, hc1.2] at hrt
  refine ⟨_, hrt, ?_, ?_, rfl, rfl, ?_, ?_⟩
  · rw [newEvents_eq st _ _ (by simp only [State.send, List.append_assoc]; rfl)]
    simp [Event.isCreate, List.filter, basicAuth]
  · refine ⟨postRequest r.ctx cpath (basicAuth st.cli), ?_, rfl, ?_⟩
    · rw [newEvents_eq st _ _ (by simp only [State.send, List.append_assoc]; rfl)]
      simp
    · rw [postRequest_authorization]; rfl
  · rw [newEvents_eq st _ _ (by simp only [State.send, List.append_assoc]; rfl)]
    simp [State.send]
  · intro r2 resp2 info2 ha2 h2 hd2
    obtain ⟨res2, hr2, hn2, ht2, hq2, hs2, _⟩ :=
      RoundTrip_reuses E _ r2 resp2 info2 (by simpa [State.send] using hfree) ha2 h2 hd2
    exact ⟨res2, hr2, hn2, by rw [ht2]; rfl, by rw [hq2]; rfl, hs2⟩

/-- C2 on a server where no token is live at first and creation returns `abc123`
in quotes: the first call creates the session, the second reuses it. -/
theorem C2_unauthorized_creates_one_session_witness :
    ∃ res, RoundTrip liveServer (sampleState "") sampleRequest = some res ∧
      (newEvents (sampleState "") res).filter Event.isCreate =
        [Event.createSessionKey "dXNlcjpwYXNz"] ∧
      res.st.cli.Token = "abc123" ∧
      res.r.Header.Get vmwareSessionIDHeader = "abc123" ∧
      ∃ res2, RoundTrip liveServer res.st sampleRequest = some res2 ∧
        (∀ a, Event.createSessionKey a ∉ newEvents res.st res2) ∧
        res2.st.cli.Token = "abc123" ∧
        res2.r.Header.Get vmwareSessionIDHeader = "abc123" := by
  obtain ⟨res, h1, h2, _, h4, h5, _, h7⟩ :=
    C2_unauthorized_creates_one_session liveServer (sampleState "") sampleRequest
      ⟨401, ⟨"", none⟩⟩ "\"abc123\"" rfl
      ⟨"https://vc.example/api/session", rfl, rfl, rfl⟩ rfl
      ⟨"https://vc.example/api/session", rfl, rfl, rfl⟩
  have ht : Trim "\"abc123\"" "\"" = "abc123" := by decide
  rw [ht] at h4 h5 h7
  have hcli : res.st.cli = sampleClient "abc123" := h4
  have hg : ∀ h : Header, (h.Add vmwareSessionIDHeader "abc123").Get vmwareSessionIDHeader =
      (h "Vmware-Api-Session-Id" ++ ["abc123"]).headD "" := by
    intro h; simp [Header.Get, Header.Add, canonical_session_key]
  refine ⟨res, h1, h2, by rw [hcli]; rfl, ?_, ?_⟩
  · rw [h5, hg]; rfl
  · obtain ⟨res2, g1, g2, g3, g4, _⟩ := h7 sampleRequest ⟨200, ⟨sampleSession, none⟩⟩
      ⟨"root", ⟨1704067200, 0⟩⟩
      ⟨"https://vc.example/api/session", by rw [hcli]; rfl, rfl, by rw [hcli]; rfl⟩ rfl rfl
    exact ⟨res2, g1, g2, g3, by rw [g4, hg]; rfl⟩

/-- C3. When creation answers 201 with body `b`, `createSessionKey` returns `b`
without its surrounding double quotes and no error: a body made of a quote, a text
`s` that neither starts nor ends with a quote, and a quote gives `s`; a body that
neither starts nor ends with a quote is returned as it is. -/
theorem C3_created_token_is_unquoted {σ : Type} (E : Env σ) (net : σ) (ctx : Context)
    (baseURL : URL) (auth path : String) (resp : Response) (b : String)
    (hpath : E.JoinPath baseURL.String "/api/session" = .ok path)
    (hparse : E.Parse path = none)
    (hdo : (E.Do net (postRequest ctx path auth)).1 = .ok resp)
    (h201 : resp.StatusCode = 201) (hbody : resp.Body = ⟨b, none⟩) :
    (createSessionKey E net ctx baseURL auth).1 = (Trim b "\"", none) ∧
    (∀ s : String, b = "\"" ++ s ++ "\"" → s.data.head? ≠ some '"' →
      s.data.getLast? ≠ some '"' → (createSessionKey E net ctx baseURL auth).1 = (s, none)) ∧
    (b.data.head? ≠ some '"' → b.data.getLast? ≠ some '"' →
      (createSessionKey E net ctx baseURL auth).1 = (b, none)) := by
  have hres : (createSessionKey E net ctx baseURL auth).1 = (Trim b "\"", none) := by
    rcases createSessionKey_cases E net ctx baseURL auth with
      ⟨m, _, h2⟩ | ⟨p, hp2, _, m, hd2, _⟩ | ⟨p, hp2, _, resp2, hd2, hc⟩
    · exact absurd hparse (h2 path hpath)
    · rw [hpath] at hp2; cases hp2; rw [hdo] at hd2; cases hd2
    · rw [hpath] at hp2; cases hp2; rw [hdo] at hd2; cases hd2
      rcases hc with ⟨h, _⟩ | ⟨h, _⟩ | ⟨_, m, h, _⟩ | ⟨_, _, h⟩
      · exact absurd h201 h
      · exact absurd h201 h
      · rw [hbody] at h; cases h
      · rw [h, hbody]
  refine ⟨hres, ?_, ?_⟩
  · intro s hs h1 h2
    rw [hres, hs, Trim_quoted s h1 h2]
  · intro h1 h2
    rw [hres, Trim_unquoted b h1 h2]

/-- C3 on the bodies `"abc123"` (in quotes) and `xyz789`. -/
theorem C3_created_token_is_unquoted_witness :
    (createSessionKey liveServer () ⟨0⟩ ⟨"https://vc.example"⟩ "dXNlcjpwYXNz").1 =
      ("abc123", none) ∧
    (createSessionKey (scripted (fun _ => .error "unused") (.ok ⟨201, ⟨"xyz789", none⟩⟩)) ()
      ⟨0⟩ ⟨"https://vc.example"⟩ "dXNlcjpwYXNz").1 = ("xyz789", none) :=
  ⟨(C3_created_token_is_unquoted liveServer () ⟨0⟩ ⟨"https://vc.example"⟩ "dXNlcjpwYXNz"
      "https://vc.example/api/session" ⟨201, ⟨"\"abc123\"", none⟩⟩ "\"abc123\"" rfl rfl rfl rfl
      rfl).2.1 "abc123" (by decide) (by decide) (by decide),
   (C3_created_token_is_unquoted (scripted (fun _ => .error "unused")
      (.ok ⟨201, ⟨"xyz789", none⟩⟩)) () ⟨0⟩ ⟨"https://vc.example"⟩ "dXNlcjpwYXNz"
      "https://vc.example/api/session" ⟨201, ⟨"xyz789", none⟩⟩ "xyz789" rfl rfl rfl rfl
      rfl).2.2 (by decide) (by decide)⟩

/-- C4. With the mutex free `RoundTrip` returns, and it calls `createSessionKey` if
and only if introspection answered 401. When the validator returns an error
without a 401 having been answered, `RoundTrip` makes no creation call, does not
hand the request to the transport and returns that error wrapped with the context
`can't get session info`; this is what happens for a transport error, for a status
other than 200 and 401, and for a 200 whose body does not decode, whose error is
not the sentinel. -/
theorem C4_creation_iff_unauthorized {σ : Type} (E : Env σ) (st : State σ) (r : Request)
    (hfree : st.cli.Mutex.locked = false) :
    ∃ res, RoundTrip E st r = some res ∧
      ((∃ a, Event.createSessionKey a ∈ newEvents st res) ↔
        ∃ resp, IntrospectionAnswers E st r resp ∧ resp.StatusCode = 401) ∧
      (∀ e, (validation E st r).1.2 = some e →
        (¬ ∃ resp, IntrospectionAnswers E st r resp ∧ resp.StatusCode = 401) →
        res.resp = none ∧ res.err = some (.wrap "can't get session info: " e) ∧
        (∀ a, Event.createSessionKey a ∉ newEvents st res) ∧
        (∀ req, Event.transport req ∉ newEvents st res)) ∧
      (∀ path m, E.JoinPath st.cli.BaseURL.String "/api/session" = .ok path →
        E.Parse path = none →
        (E.Do st.net (getRequest r.ctx path st.cli.Token)).1 = .error m →
        (validation E st r).1.2 = some (.plain m) ∧
        ¬ ∃ resp, IntrospectionAnswers E st r resp ∧ resp.StatusCode = 401) ∧
      (∀ resp, IntrospectionAnswers E st r resp → resp.StatusCode ≠ 200 →
        resp.StatusCode ≠ 401 → ∃ e, (validation E st r).1.2 = some e) ∧
      (∀ resp d, IntrospectionAnswers E st r resp → resp.StatusCode = 200 →
        DecodeSessionInfo E resp.Body = .error d →
        (validation E st r).1.2 = some (.wrap "can't decode response body: " d) ∧
        errorsIs (.wrap "can't decode response body: " d) .errUnauthorized = false) := by
  have hfail : ∀ res, RoundTrip E st r = some res →
      (∀ path m, E.JoinPath st.cli.BaseURL.String "/api/session" = .ok path →
        E.Parse path = none →
        (E.Do st.net (getRequest r.ctx path st.cli.Token)).1 = .error m →
        (validation E st r).1.2 = some (.plain m) ∧
        ¬ ∃ resp, IntrospectionAnswers E st r resp ∧ resp.StatusCode = 401) ∧
      (∀ resp, IntrospectionAnswers E st r resp → resp.StatusCode ≠ 200 →
        resp.StatusCode ≠ 401 → ∃ e, (validation E st r).1.2 = some e) ∧
      (∀ resp d, IntrospectionAnswers E st r resp → resp.StatusCode = 200 →
        DecodeSessionInfo E resp.Body = .error d →
        (validation E st r).1.2 = some (.wrap "can't decode response body: " d) ∧
        errorsIs (.wrap "can't decode response body: " d) .errUnauthorized = false) := by
    intro _ _
    refine ⟨?_, ?_, ?_⟩
    · intro path m hp hq hd
      constructor
      · unfold validation
        rcases getSessionInfo_cases E st.net r.ctx st.cli.BaseURL st.cli.Token with
          ⟨_, _, h2⟩ | ⟨p, hp2, _, m2, hd2, h3⟩ | ⟨p, hp2, _, resp2, hd2, _⟩
        · exact absurd hq (h2 path hp)
        · rw [hp] at hp2; cases hp2; rw [hd] at hd2; cases hd2; rw [h3]
        · rw [hp] at hp2; cases hp2; rw [hd] at hd2; cases hd2
      · rintro ⟨resp, ⟨p, hp2, _, hd2⟩, _⟩
        rw [hp] at hp2; cases hp2; rw [hd] at hd2; cases hd2
    · intro resp ha h200 h401
      obtain ⟨path, _, _, _, _, hc⟩ := validation_answers E st r resp ha
      rcases hc with ⟨h1, _⟩ | ⟨h1, _⟩ | ⟨h1, _⟩ | ⟨_, _, e, _, h3, _⟩ | ⟨_, _, raw, _, h3, _⟩
      · exact absurd h1 h200
      · exact absurd h1 h200
      · exact absurd h1 h401
      · exact ⟨_, by rw [h3]⟩
      · exact ⟨_, by rw [h3]⟩
    · intro resp d ha h200 hd
      obtain ⟨path, _, _, _, _, hc⟩ := validation_answers E st r resp ha
      obtain ⟨m, rfl⟩ := DecodeSessionInfo_error_plain E _ _ hd
      refine ⟨?_, by simp [errorsIs]⟩
      rcases hc with ⟨_, i, h2, _⟩ | ⟨_, e, h2, h3, _⟩ | ⟨h1, _⟩ | ⟨h1, _⟩ | ⟨h1, _⟩
      · rw [hd] at h2; cases h2
      · rw [hd] at h2; cases h2; rw [h3]
      · omega
      · exact absurd h200 h1
      · exact absurd h200 h1
  obtain ⟨o, hv⟩ : ∃ o, (validation E st r).1.2 = o := ⟨_, rfl⟩
  rcases o with _ | err
  · have hrt := RoundTrip_valid E st r hfree hv
    have hno := validation_ok_not_unauthorized E st r hv
    refine ⟨_, hrt, ?_, ?_, hfail _ hrt⟩
    · rw [newEvents_eq st _ _ (by simp only [State.send, List.append_assoc]; rfl)]
      constructor
      · rintro ⟨a, ha⟩
        simp [validation_no_create] at ha
      · intro h; exact absurd h hno
    · intro e he; rw [hv] at he; cases he
  · rcases hs : errorsIs err .errUnauthorized with _ | _
    · have hrt := RoundTrip_validate_failed E st r err hfree hv hs
      have hno : ¬ ∃ resp, IntrospectionAnswers E st r resp ∧ resp.StatusCode = 401 := by
        intro h
        have := (validation_sentinel_iff E st r err hv).2 h
        rw [hs] at this; cases this
      have hnc : ∀ a, Event.createSessionKey a ∉ newEvents st
          { resp := none, err := some (.wrap "can't get session info: " err), r := r,
            st := { cli := st.cli, net := (validation E st r).2.1,
                    trace := st.trace ++ [Event.lock, Event.tokenRead st.cli.Token] ++
                      (validation E st r).2.2 ++ [Event.unlock] } } := by
        intro a ha
        rw [newEvents_eq st _ _ (by simp only [List.append_assoc]; rfl)] at ha
        simp [validation_no_create] at ha
      refine ⟨_, hrt, ?_, ?_, hfail _ hrt⟩
      · constructor
        · rintro ⟨a, ha⟩; exact absurd ha (hnc a)
        · intro h; exact absurd h hno
      · intro e he _
        rw [hv] at he; cases he
        refine ⟨rfl, rfl, hnc, ?_⟩
        intro req hreq
        rw [newEvents_eq st _ _ (by simp only [List.append_assoc]; rfl)] at hreq
        simp [validation_no_transport] at hreq
    · have hyes := (validation_sentinel_iff E st r err hv).1 hs
      have hmem := creation_call_mem E st r
      obtain ⟨o2, hc⟩ : ∃ o, (creation E st r).1.2 = o := ⟨_, rfl⟩
      rcases o2 with _ | err2
      · have hrt := RoundTrip_created E st r err hfree hv hs hc
        refine ⟨_, hrt, ?_, ?_, hfail _ hrt⟩
        · rw [newEvents_eq st _ _ (by simp only [State.send, List.append_assoc]; rfl)]
          exact ⟨fun _ => hyes, fun _ => ⟨basicAuth st.cli, by simp [hmem]⟩⟩
        · intro e _ hno; exact absurd hyes hno
      · have hrt := RoundTrip_create_failed E st r err err2 hfree hv hs hc
        refine ⟨_, hrt, ?_, ?_, hfail _ hrt⟩
        · rw [newEvents_eq st _ _ (by simp only [List.append_assoc]; rfl)]
          exact ⟨fun _ => hyes, fun _ => ⟨basicAuth st.cli, by simp [hmem]⟩⟩
        · intro e _ hno; exact absurd hyes hno

/-- C4 on a server that answers introspection with 200 and a body that is not
JSON: the call fails with the decoding error, wrapped twice, without creation
call and without delegation. -/
theorem C4_creation_iff_unauthorized_witness :
    ∃ res, RoundTrip htmlServer (sampleState "abc123") sampleRequest = some res ∧
      res.resp = none ∧
      res.err = some (.wrap "can't get session info: " (.wrap "can't decode response body: "
        (.plain "invalid character '<' looking for beginning of value"))) ∧
      (∀ a, Event.createSessionKey a ∉ newEvents (sampleState "abc123") res) ∧
      (∀ req, Event.transport req ∉ newEvents (sampleState "abc123") res) := by
  obtain ⟨res, h1, _, h3, _, _, h6⟩ :=
    C4_creation_iff_unauthorized htmlServer (sampleState "abc123") sampleRequest rfl
  have hv := (h6 ⟨200, ⟨"<html>", none⟩⟩
    (.plain "invalid character '<' looking for beginning of value")
    ⟨"https://vc.example/api/session", rfl, rfl, rfl⟩ rfl rfl).1
  have hno : ¬ ∃ resp, IntrospectionAnswers htmlServer (sampleState "abc123") sampleRequest
      resp ∧ resp.StatusCode = 401 := by
    rintro ⟨resp, ⟨p, _, _, hd⟩, h401⟩
    have hd2 : (Except.ok ⟨200, ⟨"<html>", none⟩⟩ : Except String Response) = .ok resp := hd
    cases hd2
    cases h401
  obtain ⟨g1, g2, g3, g4⟩ := h3 _ hv hno
  exact ⟨res, h1, g1, g2, g3, g4⟩

/-- C5. Only a successful creation overwrites the token. With the mutex free
`RoundTrip` returns; when the validator failed without a 401, or a 401 was
answered and the creator returned an error (which it does when its request fails in
transport or is cancelled, and when the status is not 201), `RoundTrip` returns an
error of its own, no response, leaves the client with the token it had, and does not
hand the request to the transport. If the token changed, a 401 was answered and
the creator returned it without error. -/
theorem C5_only_success_overwrites {σ : Type} (E : Env σ) (st : State σ) (r : Request)
    (hfree : st.cli.Mutex.locked = false) :
    ∃ res, RoundTrip E st r = some res ∧
      (((∃ e, (validation E st r).1.2 = some e ∧
            ¬ ∃ resp, IntrospectionAnswers E st r resp ∧ resp.StatusCode = 401) ∨
          ((∃ resp, IntrospectionAnswers E st r resp ∧ resp.StatusCode = 401) ∧
            ∃ e, (creation E st r).1.2 = some e)) →
        res.st.cli = st.cli ∧ res.st.cli.Token = st.cli.Token ∧
        (∀ req, Event.transport req ∉ newEvents st res) ∧
        res.resp = none ∧ (∃ pre e, res.err = some (.wrap pre e)) ∧ res.r = r) ∧
      (∀ path m, E.JoinPath st.cli.BaseURL.String "/api/session" = .ok path →
        E.Parse path = none →
        (E.Do (validation E st r).2.1 (postRequest r.ctx path (basicAuth st.cli))).1 = .error m →
        (creation E st r).1.2 = some (.plain m)) ∧
      (∀ resp, CreationAnswers E st r resp → resp.StatusCode ≠ 201 →
        ∃ e, (creation E st r).1.2 = some e) ∧
      (res.st.cli.Token ≠ st.cli.Token →
        (∃ resp, IntrospectionAnswers E st r resp ∧ resp.StatusCode = 401) ∧
        (creation E st r).1.2 = none ∧ res.st.cli.Token = (creation E st r).1.1) := by
  have hcre : (∀ path m, E.JoinPath st.cli.BaseURL.String "/api/session" = .ok path →
        E.Parse path = none →
        (E.Do (validation E st r).2.1 (postRequest r.ctx path (basicAuth st.cli))).1 = .error m →
        (creation E st r).1.2 = some (.plain m)) ∧
      (∀ resp, CreationAnswers E st r resp → resp.StatusCode ≠ 201 →
        ∃ e, (creation E st r).1.2 = some e) := by
    constructor
    · intro path m hp hq hd
      unfold creation
      rcases createSessionKey_cases E (validation E st r).2.1 r.ctx st.cli.BaseURL
          (basicAuth st.cli) with
        ⟨_, _, h2⟩ | ⟨p, hp2, _, m2, hd2, h3⟩ | ⟨p, hp2, _, resp2, hd2, _⟩
      · exact absurd hq (h2 path hp)
      · rw [hp] at hp2; cases hp2; rw [hd] at hd2; cases hd2; rw [h3]
      · rw [hp] at hp2; cases hp2; rw [hd] at hd2; cases hd2
    · intro resp ha hne
      obtain ⟨path, _, _, _, hc⟩ := creation_answers E st r resp ha
      rcases hc with ⟨_, e, _, h3, _⟩ | ⟨_, raw, _, h3, _⟩ | ⟨h1, _⟩ | ⟨h1, _⟩
      · exact ⟨_, by rw [h3]⟩
      · exact ⟨_, by rw [h3]⟩
      · exact absurd h1 hne
      · exact absurd h1 hne
  obtain ⟨o, hv⟩ : ∃ o, (validation E st r).1.2 = o := ⟨_, rfl⟩
  rcases o with _ | err
  · have hrt := RoundTrip_valid E st r hfree hv
    have hno := validation_ok_not_unauthorized E st r hv
    refine ⟨_, hrt, ?_, hcre.1, hcre.2, ?_⟩
    · rintro (⟨e, he, _⟩ | ⟨h401, _⟩)
      · rw [hv] at he; cases he
      · exact absurd h401 hno
    · intro h; exact absurd rfl h
  · rcases hs : errorsIs err .errUnauthorized with _ | _
    · have hrt := RoundTrip_validate_failed E st r err hfree hv hs
      refine ⟨_, hrt, ?_, hcre.1, hcre.2, ?_⟩
      · intro _
        refine ⟨rfl, rfl, ?_, rfl, ⟨_, _, rfl⟩, rfl⟩
        intro req hreq
        rw [newEvents_eq st _ _ (by simp only [List.append_assoc]; rfl)] at hreq
        simp [validation_no_transport] at hreq
      · intro h; exact absurd rfl h
    · have hyes := (validation_sentinel_iff E st r err hv).1 hs
      obtain ⟨o2, hc⟩ : ∃ o, (creation E st r).1.2 = o := ⟨_, rfl⟩
      rcases o2 with _ | err2
      · have hrt := RoundTrip_created E st r err hfree hv hs hc
        refine ⟨_, hrt, ?_, hcre.1, hcre.2, ?_⟩
        · rintro (⟨e, _, hno⟩ | ⟨_, e, he⟩)
          · exact absurd hyes hno
          · rw [hc] at he; cases he
        · intro _; exact ⟨hyes, hc, rfl⟩
      · have hrt := RoundTrip_create_failed E st r err err2 hfree hv hs hc
        refine ⟨_, hrt, ?_, hcre.1, hcre.2, ?_⟩
        · intro _
          refine ⟨rfl, rfl, ?_, rfl, ⟨_, _, rfl⟩, rfl⟩
          intro req hreq
          rw [newEvents_eq st _ _ (by simp only [List.append_assoc]; rfl)] at hreq
          simp [validation_no_transport, creation_no_transport] at hreq
        · intro h; exact absurd rfl h

/-- C5 on a server that answers introspection with 401 and creation with 403: the
previous token `old` is still there afterwards and nothing was delegated. -/
theorem C5_only_success_overwrites_witness :
    ∃ res, RoundTrip forbiddenServer (sampleState "old") sampleRequest = some res ∧
      res.st.cli.Token = "old" ∧
      (∀ req, Event.transport req ∉ newEvents (sampleState "old") res) ∧
      res.resp = none ∧ (∃ pre e, res.err = some (.wrap pre e)) := by
  obtain ⟨res, h1, h2, _, h4, _⟩ :=
    C5_only_success_overwrites forbiddenServer (sampleState "old") sampleRequest rfl
  obtain ⟨_, g2, g3, g4, g5, _⟩ := h2 (Or.inr
    ⟨⟨⟨401, ⟨"", none⟩⟩, ⟨"https://vc.example/api/session", rfl, rfl, rfl⟩, rfl⟩,
      h4 ⟨403, ⟨"Forbidden", none⟩⟩ ⟨"https://vc.example/api/session", rfl, rfl, rfl⟩
        (by decide)⟩)
  exact ⟨res, h1, g2, g3, g4, g5⟩

/-- C6, the claim as stated fails. A server answers introspection with status 500
and the body `Internal Server Error`, which is not JSON: the validator's error is
the failure to decode the body, and neither its message nor the message of the
error `RoundTrip` returns contains the text of the body. -/
theorem C6_counterexample :
    (getSessionInfo errorPageServer () ⟨0⟩ ⟨"https://vc.example"⟩ "abc123").1.2 =
      some (.wrap "can't decode body of unsuccess response with status code 500: "
        (.plain "invalid character 'I' looking for beginning of value")) ∧
    (RoundTrip errorPageServer (sampleState "abc123") sampleRequest).map
        (fun res => res.err.map GoError.Error) =
      some (some ("can't get session info: can't decode body of unsuccess response with " ++
        "status code 500: invalid character 'I' looking for beginning of value")) ∧
    ¬ Contains ("can't get session info: can't decode body of unsuccess response with " ++
        "status code 500: invalid character 'I' looking for beginning of value")
      "Internal Server Error" :=
  ⟨rfl, rfl, by decide⟩

/-- C6, amended. When introspection answers with a status other than 200 and 401,
the validator returns an error whose message contains the status code in decimal,
and `RoundTrip` returns that error wrapped, with the message
`can't get session info: ` followed by the validator's, so that it contains what
the validator's contains; no creation call is made and the token is unchanged.
When the body starts with a JSON value the validator's message is
`incorrect response, status <code>, body ` followed by the text of that value, so
it contains the raw body text whenever the body is one JSON value; in particular
status 500 with body `{"error":"boom"}` gives a message that contains `500` and
the text `{"error":"boom"}`. When the body does not start with a JSON value the
validator's message is
`can't decode body of unsuccess response with status code <code>: ` followed by the
decoder's message. -/
theorem C6_validator_error_carries_status {σ : Type} (E : Env σ) (st : State σ) (r : Request)
    (resp : Response) (hfree : st.cli.Mutex.locked = false)
    (hanswer : IntrospectionAnswers E st r resp)
    (h200 : resp.StatusCode ≠ 200) (h401 : resp.StatusCode ≠ 401) :
    ∃ e res, (validation E st r).1 = (none, some e) ∧
      Contains e.Error (fmtD resp.StatusCode) ∧
      RoundTrip E st r = some res ∧ res.resp = none ∧
      res.err = some (.wrap "can't get session info: " e) ∧
      res.err.map GoError.Error = some ("can't get session info: " ++ e.Error) ∧
      Contains ("can't get session info: " ++ e.Error) (fmtD resp.StatusCode) ∧
      (∀ raw, DecodeRawMessage resp.Body = .ok raw →
        e.Error = "incorrect response, status " ++ fmtD resp.StatusCode ++ ", body " ++ raw ∧
        Contains e.Error raw ∧ Contains ("can't get session info: " ++ e.Error) raw) ∧
      (DecodeRawMessage resp.Body = .ok resp.Body.data →
        Contains e.Error resp.Body.data ∧
        Contains ("can't get session info: " ++ e.Error) resp.Body.data) ∧
      (resp.StatusCode = 500 → resp.Body = ⟨"\x7b\"error\":\"boom\"\x7d", none⟩ →
        Contains e.Error "500" ∧ Contains e.Error "\x7b\"error\":\"boom\"\x7d" ∧
        Contains ("can't get session info: " ++ e.Error) "500" ∧
        Contains ("can't get session info: " ++ e.Error) "\x7b\"error\":\"boom\"\x7d") ∧
      (∀ d, DecodeRawMessage resp.Body = .error d →
        e.Error = "can't decode body of unsuccess response with status code " ++
          fmtD resp.StatusCode ++ ": " ++ d.Error) ∧
      (∀ a, Event.createSessionKey a ∉ newEvents st res) ∧
      res.st.cli.Token = st.cli.Token := by
  obtain ⟨path, _, _, _, _, hc⟩ := validation_answers E st r resp hanswer
  have key : ∃ e, (validation E st r).1 = (none, some e) ∧
      errorsIs e .errUnauthorized = false ∧
      Contains e.Error (fmtD resp.StatusCode) ∧
      (∀ raw, DecodeRawMessage resp.Body = .ok raw →
        e.Error = "incorrect response, status " ++ fmtD resp.StatusCode ++ ", body " ++ raw ∧
        Contains e.Error raw) ∧
      (∀ d, DecodeRawMessage resp.Body = .error d →
        e.Error = "can't decode body of unsuccess response with status code " ++
          fmtD resp.StatusCode ++ ": " ++ d.Error) := by
    rcases hc with ⟨h1, _⟩ | ⟨h1, _⟩ | ⟨h1, _⟩ | ⟨_, _, d, hd, h3, _⟩ | ⟨_, _, raw, hd, h3, _⟩
    · exact absurd h1 h200
    · exact absurd h1 h200
    · exact absurd h1 h401
    · obtain ⟨m, rfl⟩ := DecodeRawMessage_error_plain _ _ hd
      refine ⟨_, h3, by simp [errorsIs], ?_, ?_, ?_⟩
      · exact Contains_append_right _ _ _ (Contains_mid _ _ _)
      · intro raw hr; rw [hd] at hr; cases hr
      · intro d2 hd2; rw [hd] at hd2; cases hd2; rfl
    · refine ⟨_, h3, by simp [errorsIs], ?_, ?_, ?_⟩
      · exact Contains_append_right _ _ _ (Contains_mid _ _ _)
      · intro raw2 hr
        rw [hd] at hr; cases hr
        refine ⟨rfl, ?_⟩
        have h := Contains_mid ("incorrect response, status " ++ fmtD resp.StatusCode ++
          ", body ") raw ""
        simpa [GoError.Error, fmtVRawMessage] using h
      · intro d2 hd2; rw [hd] at hd2; cases hd2
  obtain ⟨e, he, hs, hcont, hraw, hdec⟩ := key
  have hrt := RoundTrip_validate_failed E st r e hfree (by rw [he]) hs
  refine ⟨e, _, he, hcont, hrt, rfl, rfl, rfl, Contains_append_left _ _ _ hcont, ?_, ?_, ?_,
    hdec, ?_, rfl⟩
  · intro raw hr
    exact ⟨(hraw raw hr).1, (hraw raw hr).2, Contains_append_left _ _ _ (hraw raw hr).2⟩
  · intro hr
    exact ⟨(hraw _ hr).2, Contains_append_left _ _ _ (hraw _ hr).2⟩
  · intro h500 hbody
    have hr : DecodeRawMessage resp.Body = .ok "\x7b\"error\":\"boom\"\x7d" := by
      rw [hbody]; rfl
    have hc500 : Contains e.Error "500" := by
      have := hcont; rw [h500] at this; exact this
    exact ⟨hc500, (hraw _ hr).2, Contains_append_left _ _ _ hc500,
      Contains_append_left _ _ _ (hraw _ hr).2⟩
  · intro a ha
    rw [newEvents_eq st _ _ (by simp only [List.append_assoc]; rfl)] at ha
    simp [validation_no_create] at ha

/-- C6, amended, on the server that answers 500 with the body `{"error":"boom"}`:
the message of the validator's error, and of the error `RoundTrip` returns, names
the status and has the text of the body. -/
theorem C6_validator_error_carries_status_witness :
    ∃ e res, (validation boomServer (sampleState "abc123") sampleRequest).1 =
        (none, some e) ∧
      e.Error = "incorrect response, status 500, body \x7b\"error\":\"boom\"\x7d" ∧
      Contains e.Error "500" ∧ Contains e.Error "\x7b\"error\":\"boom\"\x7d" ∧
      RoundTrip boomServer (sampleState "abc123") sampleRequest = some res ∧
      res.err = some (.wrap "can't get session info: " e) ∧
      Contains ("can't get session info: " ++ e.Error) "500" ∧
      Contains ("can't get session info: " ++ e.Error) "\x7b\"error\":\"boom\"\x7d" ∧
      res.st.cli.Token = "abc123" := by
  obtain ⟨e, res, h1, _, h3, _, h5, _, _, h8, _, h10, _, _, h13⟩ :=
    C6_validator_error_carries_status boomServer (sampleState "abc123") sampleRequest
      ⟨500, ⟨"\x7b\"error\":\"boom\"\x7d", none⟩⟩ rfl
      ⟨"https://vc.example/api/session", rfl, rfl, rfl⟩ (by decide) (by decide)
  obtain ⟨g1, g2, g3, g4⟩ := h10 rfl rfl
  exact ⟨e, res, h1, (h8 "\x7b\"error\":\"boom\"\x7d" rfl).1, g1, g2, h3, h5, g3, g4, h13⟩

/-- C7, the claim as stated fails. A server answers creation with status 403 and
the body `Forbidden`, which is not JSON: `createSessionKey` returns the empty token
and the failure to decode the body, and neither its message nor the message of the
error `RoundTrip` returns contains the text of the body. -/
theorem C7_counterexample :
    (createSessionKey forbiddenServer () ⟨0⟩ ⟨"https://vc.example"⟩ "dXNlcjpwYXNz").1 =
      ("", some (.wrap "can't decode body of unsuccess response with status code 403: "
        (.plain "invalid character 'F' looking for beginning of value"))) ∧
    (RoundTrip forbiddenServer (sampleState "old") sampleRequest).map
        (fun res => res.err.map GoError.Error) =
      some (some ("can't create session: can't decode body of unsuccess response with " ++
        "status code 403: invalid character 'F' looking for beginning of value")) ∧
    ¬ Contains ("can't create session: can't decode body of unsuccess response with " ++
        "status code 403: invalid character 'F' looking for beginning of value")
      "Forbidden" :=
  ⟨rfl, rfl, by decide⟩

/-- A JSON body is carried in the form the verb `%q` gives it: for status 403 and
body `{"error":"boom"}` the quotes inside the body come out escaped, so the
message does not contain the body letter for letter either. -/
theorem createSessionKey_quotes_raw_message :
    (createSessionKey forbiddenJSONServer () ⟨0⟩ ⟨"https://vc.example"⟩ "dXNlcjpwYXNz").1 =
      ("", some (.plain ("incorrect response, status 403, body " ++
        "\"\x7b\\\"error\\\":\\\"boom\\\"\x7d\""))) ∧
    ¬ Contains ("incorrect response, status 403, body " ++
        "\"\x7b\\\"error\\\":\\\"boom\\\"\x7d\"") "\x7b\"error\":\"boom\"\x7d" :=
  ⟨rfl, by decide⟩

/-- C7, amended. When introspection answers 401 and creation answers with a status
other than 201, whatever the body, `createSessionKey` returns the empty token
together with an error whose message contains the status code in decimal: when the
body starts with a JSON value the message is
`incorrect response, status <code>, body ` followed by that value as the verb `%q`
quotes it, otherwise it is
`can't decode body of unsuccess response with status code <code>: ` followed by the
decoder's message. `RoundTrip` returns that error wrapped, with the message
`can't create session: ` followed by the creator's, and leaves the token as it was. -/
theorem C7_creator_error_carries_status {σ : Type} (E : Env σ) (st : State σ) (r : Request)
    (vresp resp : Response) (hfree : st.cli.Mutex.locked = false)
    (hanswer : IntrospectionAnswers E st r vresp) (h401 : vresp.StatusCode = 401)
    (hcreate : CreationAnswers E st r resp) (hne : resp.StatusCode ≠ 201) :
    ∃ e res, (creation E st r).1 = ("", some e) ∧
      Contains e.Error (fmtD resp.StatusCode) ∧
      (∀ raw, DecodeRawMessage resp.Body = .ok raw →
        e.Error = "incorrect response, status " ++ fmtD resp.StatusCode ++ ", body " ++
          Quote E.isPrintTable raw) ∧
      (∀ d, DecodeRawMessage resp.Body = .error d →
        e.Error = "can't decode body of unsuccess response with status code " ++
          fmtD resp.StatusCode ++ ": " ++ d.Error) ∧
      RoundTrip E st r = some res ∧ res.resp = none ∧
      res.err = some (.wrap "can't create session: " e) ∧
      res.err.map GoError.Error = some ("can't create session: " ++ e.Error) ∧
      Contains ("can't create session: " ++ e.Error) (fmtD resp.StatusCode) ∧
      res.st.cli.Token = st.cli.Token := by
  obtain ⟨cpath, _, _, _, hc⟩ := creation_answers E st r resp hcreate
  have key : ∃ e, (creation E st r).1 = ("", some e) ∧
      Contains e.Error (fmtD resp.StatusCode) ∧
      (∀ raw, DecodeRawMessage resp.Body = .ok raw →
        e.Error = "incorrect response, status " ++ fmtD resp.StatusCode ++ ", body " ++
          Quote E.isPrintTable raw) ∧
      (∀ d, DecodeRawMessage resp.Body = .error d →
        e.Error = "can't decode body of unsuccess response with status code " ++
          fmtD resp.StatusCode ++ ": " ++ d.Error) := by
    rcases hc with ⟨_, d, hd, h3, _⟩ | ⟨_, raw, hd, h3, _⟩ | ⟨h1, _⟩ | ⟨h1, _⟩
    · refine ⟨_, h3, ?_, ?_, ?_⟩
      · exact Contains_append_right _ _ _ (Contains_mid _ _ _)
      · intro raw hr; rw [hd] at hr; cases hr
      · intro d2 hd2; rw [hd] at hd2; cases hd2; rfl
    · refine ⟨_, h3, ?_, ?_, ?_⟩
      · exact Contains_append_right _ _ _ (Contains_mid _ _ _)
      · intro raw2 hr; rw [hd] at hr; cases hr; rfl
      · intro d2 hd2; rw [hd] at hd2; cases hd2
    · exact absurd h1 hne
    · exact absurd h1 hne
  obtain ⟨e, he, hcont, hraw, hdec⟩ := key
  have hv : (validation E st r).1.2 = some .errUnauthorized := by
    obtain ⟨path, _, _, _, _, hv⟩ := validation_answers E st r vresp hanswer
    rcases hv with ⟨h, _⟩ | ⟨h, _⟩ | ⟨_, h, _⟩ | ⟨_, h, _⟩ | ⟨_, h, _⟩
    · omega
    · omega
    · rw [h]
    · exact absurd h401 h
    · exact absurd h401 h
  have hrt := RoundTrip_create_failed E st r .errUnauthorized e hfree hv errorsIs_sentinel
    (by rw [he])
  exact ⟨e, _, he, hcont, hraw, hdec, hrt, rfl, rfl, rfl, Contains_append_left _ _ _ hcont, rfl⟩

/-- C7, amended, on the server that refuses creation with 403 and a JSON body. -/
theorem C7_creator_error_carries_status_witness :
    ∃ e res, (creation forbiddenJSONServer (sampleState "old") sampleRequest).1 =
        ("", some e) ∧
      Contains e.Error "403" ∧
      e.Error = "incorrect response, status 403, body " ++
        "\"\x7b\\\"error\\\":\\\"boom\\\"\x7d\"" ∧
      RoundTrip forbiddenJSONServer (sampleState "old") sampleRequest = some res ∧
      res.err = some (.wrap "can't create session: " e) ∧
      res.st.cli.Token = "old" := by
  obtain ⟨e, res, h1, h2, h3, _, h5, _, h7, _, _, h10⟩ :=
    C7_creator_error_carries_status forbiddenJSONServer (sampleState "old") sampleRequest
      ⟨401, ⟨"", none⟩⟩ ⟨403, ⟨"\x7b\"error\":\"boom\"\x7d", none⟩⟩ rfl
      ⟨"https://vc.example/api/session", rfl, rfl, rfl⟩ rfl
      ⟨"https://vc.example/api/session", rfl, rfl, rfl⟩ (by decide)
  exact ⟨e, res, h1, h2, h3 "\x7b\"error\":\"boom\"\x7d" rfl, h5, h7, h10⟩

/-- C8, the claim as stated fails. The request comes in with the header
`Vmware-Api-Session-Id: old`, the client holds the live token `abc123`: the one
request delegated to the transport has `old` as the first value of that header,
not the token. -/
theorem C8_counterexample :
    (RoundTrip liveServer (sampleState "abc123") staleRequest).map
        (fun res => ((delegated (newEvents (sampleState "abc123") res)).map
          (fun req => (req.Header.Get vmwareSessionIDHeader,
            req.Header "Vmware-Api-Session-Id")), res.st.cli.Token)) =
      some ([("old", ["old", "abc123"])], "abc123") :=
  rfl

/-- C8, amended. Whatever headers the request carries, `RoundTrip` appends the
client's token to the values of `vmware-api-session-id` (key
`Vmware-Api-Session-Id` of the map) and changes no other key: on the request it
delegates to the transport the values under that key are the incoming ones followed
by the token the client holds at that point, so a first-value lookup returns the
token when the incoming request had no value under that key. At most one request is
delegated, and it is the caller's request object. -/
theorem C8_token_is_appended {σ : Type} (E : Env σ) (st : State σ) (r : Request)
    (hfree : st.cli.Mutex.locked = false) :
    ∃ res, RoundTrip E st r = some res ∧
      (delegated (newEvents st res) = [] ∨ delegated (newEvents st res) = [res.r]) ∧
      ∀ req ∈ delegated (newEvents st res),
        req.Header "Vmware-Api-Session-Id" =
          r.Header "Vmware-Api-Session-Id" ++ [res.st.cli.Token] ∧
        (∀ k, k ≠ "Vmware-Api-Session-Id" → req.Header k = r.Header k) ∧
        (r.Header "Vmware-Api-Session-Id" = [] →
          req.Header.Get vmwareSessionIDHeader = res.st.cli.Token) := by
  obtain ⟨o, hv⟩ : ∃ o, (validation E st r).1.2 = o := ⟨_, rfl⟩
  rcases o with _ | err
  · have hrt := RoundTrip_valid E st r hfree hv
    have hd : delegated (newEvents st (State.send E
        { cli := st.cli, net := (validation E st r).2.1,
          trace := st.trace ++ [Event.lock, Event.tokenRead st.cli.Token] ++
            (validation E st r).2.2 ++
            [Event.tokenRead st.cli.Token, Event.headerAdd vmwareSessionIDHeader st.cli.Token,
              Event.unlock] }
        { r with Header := r.Header.Add vmwareSessionIDHeader st.cli.Token })) =
        [{ r with Header := r.Header.Add vmwareSessionIDHeader st.cli.Token }] := by
      rw [newEvents_eq st _ _ (by simp only [State.send, List.append_assoc]; rfl)]
      simp [delegated_append, delegated_validation, delegated]
    refine ⟨_, hrt, Or.inr hd, ?_⟩
    intro req hreq
    rw [hd] at hreq
    simp only [List.mem_singleton] at hreq
    subst hreq
    exact Header.Add_session r.Header st.cli.Token
  · rcases hs : errorsIs err .errUnauthorized with _ | _
    · have hrt := RoundTrip_validate_failed E st r err hfree hv hs
      have hd : delegated (newEvents st
          { resp := none, err := some (.wrap "can't get session info: " err), r := r,
            st := { cli := st.cli, net := (validation E st r).2.1,
                    trace := st.trace ++ [Event.lock, Event.tokenRead st.cli.Token] ++
                      (validation E st r).2.2 ++ [Event.unlock] } }) = [] := by
        rw [newEvents_eq st _ _ (by simp only [List.append_assoc]; rfl)]
        simp [delegated_append, delegated_validation, delegated]
      refine ⟨_, hrt, Or.inl hd, ?_⟩
      intro req hreq
      rw [hd] at hreq
      cases hreq
    · obtain ⟨o2, hc⟩ : ∃ o, (creation E st r).1.2 = o := ⟨_, rfl⟩
      rcases o2 with _ | err2
      · have hrt := RoundTrip_created E st r err hfree hv hs hc
        have hd : delegated (newEvents st (State.send E
            { cli := { st.cli with Token := (creation E st r).1.1 },
              net := (creation E st r).2.1,
              trace := st.trace ++ [Event.lock, Event.tokenRead st.cli.Token] ++
                (validation E st r).2.2 ++ (creation E st r).2.2 ++
                [Event.logPrintln "new session created",
                 Event.tokenWrite (creation E st r).1.1,
                 Event.headerAdd vmwareSessionIDHeader (creation E st r).1.1,
                 Event.unlock] }
            { r with Header := r.Header.Add vmwareSessionIDHeader (creation E st r).1.1 })) =
            [{ r with Header := r.Header.Add vmwareSessionIDHeader (creation E st r).1.1 }] := by
          rw [newEvents_eq st _ _ (by simp only [State.send, List.append_assoc]; rfl)]
          simp [delegated_append, delegated_validation, delegated_creation, delegated]
        refine ⟨_, hrt, Or.inr hd, ?_⟩
        intro req hreq
        rw [hd] at hreq
        simp only [List.mem_singleton] at hreq
        subst hreq
        exact Header.Add_session r.Header (creation E st r).1.1
      · have hrt := RoundTrip_create_failed E st r err err2 hfree hv hs hc
        have hd : delegated (newEvents st
            { resp := none, err := some (.wrap "can't create session: " err2), r := r,
              st := { cli := st.cli, net := (creation E st r).2.1,
                      trace := st.trace ++ [Event.lock, Event.tokenRead st.cli.Token] ++
                        (validation E st r).2.2 ++ (creation E st r).2.2 ++
                        [Event.unlock] } }) = [] := by
          rw [newEvents_eq st _ _ (by simp only [List.append_assoc]; rfl)]
          simp [delegated_append, delegated_validation, delegated_creation, delegated]
        refine ⟨_, hrt, Or.inl hd, ?_⟩
        intro req hreq
        rw [hd] at hreq
        cases hreq

/-- C8, amended, on a request without session header and a live token: the
delegated request has the token as the first value of the header. -/
theorem C8_token_is_appended_witness :
    ∃ res, RoundTrip liveServer (sampleState "abc123") sampleRequest = some res ∧
      (delegated (newEvents (sampleState "abc123") res)).length = 1 ∧
      ∀ req ∈ delegated (newEvents (sampleState "abc123") res),
        req.Header "Vmware-Api-Session-Id" = [res.st.cli.Token] ∧
        req.Header.Get vmwareSessionIDHeader = res.st.cli.Token := by
  obtain ⟨res, h1, _, h3⟩ :=
    C8_token_is_appended liveServer (sampleState "abc123") sampleRequest rfl
  have hlen : (RoundTrip liveServer (sampleState "abc123") sampleRequest).map
      (fun res => (delegated (newEvents (sampleState "abc123") res)).length) = some 1 := rfl
  rw [h1] at hlen
  exact ⟨res, h1, by simpa using hlen,
    fun req hreq => ⟨(h3 req hreq).1, (h3 req hreq).2.2 rfl⟩⟩

/-- C9. With the lock as explicit state and the run as a sequence of events: on
every path `RoundTrip` returns, and what it added to the trace is one `lock`, then
events of the guarded kind only (the validate call, the create call, the reads and
the write of `Client.Token`, the header attachment, the requests of the validator
and the creator), then one `unlock`, then nothing (when it returns its own error)
or the delegation of the caller's request. So every guarded event lies between
the acquisition and the release, the delegation comes after the release, and the
mutex is free when `RoundTrip` returns. -/
theorem C9_lock_discipline {σ : Type} (E : Env σ) (st : State σ) (r : Request)
    (hfree : st.cli.Mutex.locked = false) :
    ∃ res mid tail, RoundTrip E st r = some res ∧
      newEvents st res = [Event.lock] ++ mid ++ [Event.unlock] ++ tail ∧
      (∀ e ∈ mid, e.guarded = true) ∧
      (tail = [] ∨ tail = [Event.transport res.r]) ∧
      (tail = [] ↔ ∃ pre e, res.err = some (.wrap pre e) ∧ res.resp = none ∧
        (pre = "can't get session info: " ∨ pre = "can't create session: ")) ∧
      Event.tokenRead st.cli.Token ∈ mid ∧ Event.getSessionInfo st.cli.Token ∈ mid ∧
      (∀ e ∈ newEvents st res, e.guarded = true → e ∈ mid) ∧
      res.st.cli.Mutex.locked = false := by
  have hshape : ∀ (res : Result σ) (mid tail : List Event),
      newEvents st res = [Event.lock] ++ mid ++ [Event.unlock] ++ tail →
      (tail = [] ∨ tail = [Event.transport res.r]) →
      ∀ e ∈ newEvents st res, e.guarded = true → e ∈ mid := by
    intro res mid tail hn ht e he hg
    rw [hn] at he
    simp only [List.mem_append, List.mem_singleton] at he
    rcases he with ((he | he) | he) | he
    · subst he; cases hg
    · exact he
    · subst he; cases hg
    · rcases ht with ht | ht
      · rw [ht] at he; cases he
      · rw [ht] at he; simp only [List.mem_singleton] at he; subst he; cases hg
  have hvg := validation_guarded E st r
  have hcg := creation_guarded E st r
  have hvm := validation_call_mem E st r
  obtain ⟨o, hv⟩ : ∃ o, (validation E st r).1.2 = o := ⟨_, rfl⟩
  rcases o with _ | err
  · have hrt := RoundTrip_valid E st r hfree hv
    have hn := newEvents_eq st (State.send E
        { cli := st.cli, net := (validation E st r).2.1,
          trace := st.trace ++ [Event.lock, Event.tokenRead st.cli.Token] ++
            (validation E st r).2.2 ++
            [Event.tokenRead st.cli.Token, Event.headerAdd vmwareSessionIDHeader st.cli.Token,
              Event.unlock] }
        { r with Header := r.Header.Add vmwareSessionIDHeader st.cli.Token })
      ([Event.lock] ++ ([Event.tokenRead st.cli.Token] ++ (validation E st r).2.2 ++
        [Event.tokenRead st.cli.Token, Event.headerAdd vmwareSessionIDHeader st.cli.Token]) ++
        [Event.unlock] ++
        [Event.transport { r with Header := r.Header.Add vmwareSessionIDHeader st.cli.Token }])
      (by simp [State.send])
    refine ⟨_, _, _, hrt, hn, ?_, Or.inr rfl, ?_, by simp, by simp [hvm],
      hshape _ _ _ hn (Or.inr rfl), hfree⟩
    · intro e he
      simp only [List.mem_append, List.mem_cons, List.mem_singleton, List.not_mem_nil,
        or_false] at he
      rcases he with (he | he) | he | he
      · subst he; rfl
      · exact hvg e he
      · subst he; rfl
      · subst he; rfl
    · simp [State.send]
  · rcases hs : errorsIs err .errUnauthorized with _ | _
    · have hrt := RoundTrip_validate_failed E st r err hfree hv hs
      have hn := newEvents_eq st
        { resp := none, err := some (.wrap "can't get session info: " err), r := r,
          st := { cli := st.cli, net := (validation E st r).2.1,
                  trace := st.trace ++ [Event.lock, Event.tokenRead st.cli.Token] ++
                    (validation E st r).2.2 ++ [Event.unlock] } }
        ([Event.lock] ++ ([Event.tokenRead st.cli.Token] ++ (validation E st r).2.2) ++
          [Event.unlock] ++ [])
        (by simp)
      refine ⟨_, _, _, hrt, hn, ?_, Or.inl rfl, ?_, by simp, by simp [hvm],
        hshape _ _ _ hn (Or.inl rfl), hfree⟩
      · intro e he
        simp only [List.mem_append, List.mem_singleton] at he
        rcases he with he | he
        · subst he; rfl
        · exact hvg e he
      · exact ⟨fun _ => ⟨_, _, rfl, rfl, Or.inl rfl⟩, fun _ => rfl⟩
    · obtain ⟨o2, hc⟩ : ∃ o, (creation E st r).1.2 = o := ⟨_, rfl⟩
      rcases o2 with _ | err2
      · have hrt := RoundTrip_created E st r err hfree hv hs hc
        have hn := newEvents_eq st (State.send E
            { cli := { st.cli with Token := (creation E st r).1.1 },
              net := (creation E st r).2.1,
              trace := st.trace ++ [Event.lock, Event.tokenRead st.cli.Token] ++
                (validation E st r).2.2 ++ (creation E st r).2.2 ++
                [Event.logPrintln "new session created",
                 Event.tokenWrite (creation E st r).1.1,
                 Event.headerAdd vmwareSessionIDHeader (creation E st r).1.1,
                 Event.unlock] }
            { r with Header := r.Header.Add vmwareSessionIDHeader (creation E st r).1.1 })
          ([Event.lock] ++ ([Event.tokenRead st.cli.Token] ++ (validation E st r).2.2 ++
            (creation E st r).2.2 ++ [Event.logPrintln "new session created",
              Event.tokenWrite (creation E st r).1.1,
              Event.headerAdd vmwareSessionIDHeader (creation E st r).1.1]) ++
            [Event.unlock] ++
            [Event.transport
              { r with Header := r.Header.Add vmwareSessionIDHeader (creation E st r).1.1 }])
          (by simp [State.send])
        refine ⟨_, _, _, hrt, hn, ?_, Or.inr rfl, ?_, by simp, by simp [hvm],
          hshape _ _ _ hn (Or.inr rfl), hfree⟩
        · intro e he
          simp only [List.mem_append, List.mem_cons, List.mem_singleton, List.not_mem_nil,
            or_false] at he
          rcases he with ((he | he) | he) | he | he | he
          · subst he; rfl
          · exact hvg e he
          · exact hcg e he
          · subst he; rfl
          · subst he; rfl
          · subst he; rfl
        · simp [State.send]
      · have hrt := RoundTrip_create_failed E st r err err2 hfree hv hs hc
        have hn := newEvents_eq st
          { resp := none, err := some (.wrap "can't create session: " err2), r := r,
            st := { cli := st.cli, net := (creation E st r).2.1,
                    trace := st.trace ++ [Event.lock, Event.tokenRead st.cli.Token] ++
                      (validation E st r).2.2 ++ (creation E st r).2.2 ++ [Event.unlock] } }
          ([Event.lock] ++ ([Event.tokenRead st.cli.Token] ++ (validation E st r).2.2 ++
            (creation E st r).2.2) ++ [Event.unlock] ++ [])
          (by simp)
        refine ⟨_, _, _, hrt, hn, ?_, Or.inl rfl, ?_, by simp, by simp [hvm],
          hshape _ _ _ hn (Or.inl rfl), hfree⟩
        · intro e he
          simp only [List.mem_append, List.mem_singleton] at he
          rcases he with (he | he) | he
          · subst he; rfl
          · exact hvg e he
          · exact hcg e he
        · exact ⟨fun _ => ⟨_, _, rfl, rfl, Or.inr rfl⟩, fun _ => rfl⟩

/-- C9 on a run that creates a session: the trace is `lock`, nine guarded events,
`unlock`, one delegation. -/
theorem C9_lock_discipline_witness :
    ∃ res mid tail, RoundTrip liveServer (sampleState "") sampleRequest = some res ∧
      newEvents (sampleState "") res = [Event.lock] ++ mid ++ [Event.unlock] ++ tail ∧
      (∀ e ∈ mid, e.guarded = true) ∧ tail = [Event.transport res.r] ∧
      (newEvents (sampleState "") res).length = 12 ∧
      res.st.cli.Mutex.locked = false := by
  obtain ⟨res, mid, tail, h1, h2, h3, h4, h5, _, _, _, h9⟩ :=
    C9_lock_discipline liveServer (sampleState "") sampleRequest rfl
  have hlen : (RoundTrip liveServer (sampleState "") sampleRequest).map
      (fun res => ((newEvents (sampleState "") res).length, res.err)) = some (12, none) := rfl
  rw [h1] at hlen
  simp only [Option.map_some', Option.some.injEq, Prod.mk.injEq] at hlen
  refine ⟨res, mid, tail, h1, h2, h3, ?_, hlen.1, h9⟩
  rcases h4 with h4 | h4
  · obtain ⟨pre, e, he, _⟩ := h5.1 h4
    rw [hlen.2] at he; cases he
  · exact h4

end Vccli
